import Mathlib

/-!
# Verification of the TJCE precatórios crawler

A shallow embedding, in Lean 4, of the decoding and pagination core of the
crawler found in `src/crawler.py`, together with the entity-name resolution of
`src/entity_mapping.py`, the field configuration of `src/config.py` and the
payload construction of `PrecatoriosCrawler.get_precatorios_payload`.

Python JSON values are modelled by the inductive type `Json` below; Python
dictionaries keep insertion order, so objects are association lists.  Machine
floats only occur here as containers for decimal literals, so they are
modelled by `Rat`.  Fallible Python operations (raising paths) are modelled by
`Option`.
-/

namespace Crawler

/-- A JSON value as produced by `response.json()` in Python.  `int` and `num`
are kept apart because the source distinguishes `isinstance(v, int)` from
`isinstance(v, float)` when resolving dictionary indices. -/
inductive Json where
  | null : Json
  | bool (b : Bool) : Json
  | int (n : Int) : Json
  | num (q : Rat) : Json
  | str (s : String) : Json
  | arr (items : List Json) : Json
  | obj (fields : List (String × Json)) : Json
deriving Repr

mutual

/-- Structural equality on `Json`, modelling Python `==` on decoded JSON. -/
def Json.beq : Json → Json → Bool
  | .null, .null => true
  | .bool a, .bool b => a == b
  | .int a, .int b => a == b
  | .num a, .num b => a == b
  | .str a, .str b => a == b
  | .arr a, .arr b => Json.beqList a b
  | .obj a, .obj b => Json.beqFields a b
  | _, _ => false

def Json.beqList : List Json → List Json → Bool
  | [], [] => true
  | x :: xs, y :: ys => Json.beq x y && Json.beqList xs ys
  | _, _ => false

def Json.beqFields : List (String × Json) → List (String × Json) → Bool
  | [], [] => true
  | (k, v) :: xs, (l, w) :: ys => k == l && Json.beq v w && Json.beqFields xs ys
  | _, _ => false

end

instance : BEq Json := ⟨Json.beq⟩

/-- Python truthiness of a JSON value (`bool(v)`): `None`, `False`, `0`,
`0.0`, `""`, `[]` and `{}` are falsy, everything else truthy. -/
def Json.truthy : Json → Bool
  | .null => false
  | .bool b => b
  | .int n => n != 0
  | .num q => q != 0
  | .str s => s ≠ ""
  | .arr items => !items.isEmpty
  | .obj fields => !fields.isEmpty

/-- Key lookup in a JSON object: `Json.find? j k` is the value bound to `k`
when `j` is an object containing `k`, and `none` otherwise. -/
def Json.find? : Json → String → Option Json
  | .obj fields, k => (fields.find? (fun kv => kv.1 = k)).map (·.2)
  | _, _ => none

/-- Python `d.get(k, default)` on a JSON object: `none` models the
`AttributeError` raised when `d` is not a dict; otherwise the bound value or
the default. -/
def Json.pyGet : Json → String → Json → Option Json
  | .obj fields, k, d => some (((fields.find? (fun kv => kv.1 = k)).map (·.2)).getD d)
  | _, _, _ => none

/-- Python `xs[0]`: `none` models the exception raised when the value is not a
non-empty list. -/
def Json.pyIndex0 : Json → Option Json
  | .arr (x :: _) => some x
  | _ => none

/-- Python `k in d` membership test on a JSON object (false on non-objects,
where the source reaches this test only behind a truthiness guard). -/
def Json.hasKey : Json → String → Bool
  | .obj fields, k => fields.any (fun kv => kv.1 = k)
  | _, _ => false

/-- Python `len(xs)` restricted to JSON arrays. -/
def Json.arrLen : Json → Nat
  | .arr items => items.length
  | _ => 0

/-- Render a rational as Python renders the floats occurring in this code
base: integral values print with a trailing `.0`, other values print their
(finite) decimal expansion.  Only used to model `str(value)` on numeric wire
values, which the decode pipeline passes through `_format_value`. -/
def ratPyStr (q : Rat) : String :=
  if q.den = 1 then toString q.num ++ ".0" else toString q

/-- Python `str(value)` on the JSON values that reach `_format_value` in
`PrecatoriosCrawler.normalize_to_rows`. -/
def pyStr : Json → String
  | .null => "None"
  | .bool b => if b then "True" else "False"
  | .int n => toString n
  | .num q => ratPyStr q
  | .str s => s
  | .arr _ => "[...]"
  | .obj _ => "{...}"

/-- ASCII decimal digit test (Python numeric parsing is ASCII-based for the
inputs this crawler sees). -/
def isDigitChar (c : Char) : Bool := '0' ≤ c ∧ c ≤ '9'

/-- A character of the regex class `\s` / Python whitespace stripping. -/
def isPySpace (c : Char) : Bool :=
  c = ' ' ∨ c = '\t' ∨ c = '\n' ∨ c = '\x0d' ∨ c = '\x0b' ∨ c = '\x0c'

/-- Python `s.strip()`: drop whitespace from both ends. -/
def pyStripChars (cs : List Char) : List Char :=
  ((cs.dropWhile isPySpace).reverse.dropWhile isPySpace).reverse

/-- The numeric value of a digit list, most significant digit first. -/
def digitsToNat (cs : List Char) : Nat :=
  cs.foldl (fun acc c => acc * 10 + (c.toNat - '0'.toNat)) 0

/-- The strict order on `Rat` computed directly from the numerator/denominator
representation (denominators are positive), used instead of the builtin
comparison so that concrete instances reduce inside the kernel. -/
def ratLtB (a b : Rat) : Bool :=
  a.num * (b.den : Int) < b.num * (a.den : Int)

/-- Model of Python `int(s)` on strings: surrounding whitespace is allowed,
then an optional sign and decimal digits; anything else raises (`none`). -/
def pyInt (s : String) : Option Int :=
  let cs := pyStripChars s.toList
  let (sign, rest) :=
    match cs with
    | '-' :: r => ((-1 : Int), r)
    | '+' :: r => ((1 : Int), r)
    | r => ((1 : Int), r)
  if rest ≠ [] ∧ rest.all isDigitChar then
    some (sign * (digitsToNat rest : Int))
  else none

/-- Model of Python `float(s)` on a character list, for the decimal strings
this crawler feeds it: optional sign, digits, optionally a dot and fractional
digits.  Strings containing any other character (for example a comma) raise
(`none`). -/
def pyFloatChars (cs₀ : List Char) : Option Rat :=
  let cs := pyStripChars cs₀
  let (sign, rest) :=
    match cs with
    | '-' :: r => ((-1 : Int), r)
    | '+' :: r => ((1 : Int), r)
    | r => ((1 : Int), r)
  match rest.splitOn '.' with
  | [intPart] =>
      if intPart ≠ [] ∧ intPart.all isDigitChar then
        some (mkRat (sign * (digitsToNat intPart : Int)) 1)
      else none
  | [intPart, fracPart] =>
      if (intPart ≠ [] ∨ fracPart ≠ []) ∧ intPart.all isDigitChar ∧ fracPart.all isDigitChar then
        some (mkRat (sign * ((digitsToNat intPart * 10 ^ fracPart.length + digitsToNat fracPart : Nat) : Int))
          (10 ^ fracPart.length))
      else none
  | _ => none

/-- Model of Python `float(s)` on strings. -/
def pyFloat (s : String) : Option Rat :=
  pyFloatChars s.toList

/-- Model of Python `int(value)` applied to a decoded JSON wire value, as in
the base-row dictionary resolution `int(raw_value_for_field)`: ints pass
through, floats truncate toward zero, strings parse as integers, everything
else raises (`none`). -/
def pyIntOfJson : Json → Option Int
  | .int n => some n
  | .bool b => some (if b then 1 else 0)
  | .num q => some (q.num.tdiv q.den)
  | .str s => pyInt s
  | _ => none

/-! ## Field configuration (`src/config.py`, `FieldConfig`) -/

/-- One entry of `FieldConfig.field_mapping`: the canonical CSV field, its
declared type, its optional textual default and the wire (`api_name`)
column it maps. -/
structure FieldCfg where
  csvField : String
  ty : String
  default : Option String
  apiName : String
deriving Repr, DecidableEq

/-- `FieldConfig.field_mapping` from `src/config.py`, in insertion order. -/
def fieldMapping : List FieldCfg :=
  [ ⟨"ordem", "int", some "0", "dfslcp_num_ordem"⟩,
    ⟨"processo", "processo", none, "dfslcp_dsc_proc_precatorio"⟩,
    ⟨"comarca", "str", some "-", "dfslcp_dsc_comarca"⟩,
    ⟨"ano_orcamento", "int", some "2024", "dfslcp_num_ano_orcamento"⟩,
    ⟨"natureza", "str", some "-", "dfslcp_dsc_natureza"⟩,
    ⟨"data_cadastro", "date", none, "dfslcp_dat_cadastro"⟩,
    ⟨"tipo_classificacao", "str", some "-", "dfslcp_dsc_tipo_classificao"⟩,
    ⟨"valor_original", "float", some "0.0", "dfslcp_vlr_original"⟩,
    ⟨"valor_atual", "Decimal", some "0.0", "ValorAtualFormatado"⟩,
    ⟨"situacao", "str", some "-", "dfslcp_dsc_sit_precatorio"⟩ ]

/-- `FieldConfig.csv_fields` from `src/config.py`. -/
def csvFields : List String :=
  [ "ordem", "processo", "comarca", "ano_orcamento", "natureza",
    "data_cadastro", "tipo_classificacao", "valor_original", "valor_atual",
    "situacao" ]

/-- The `api_name_to_csv_field_map` built at the top of
`normalize_to_rows`: lookup of a resolved base name among the configured
`api_name`s. -/
def apiMapLookup (baseName : String) : Option FieldCfg :=
  fieldMapping.find? (fun c => c.apiName = baseName)

/-- The JSON value `attrs.get("default")` passed to `_format_value` when a
row is initialised from field defaults (`None` when the mapping entry has no
default, as for `processo` and `data_cadastro`). -/
def defaultJson (c : FieldCfg) : Json :=
  match c.default with
  | some s => .str s
  | none => .null

/-! ## Wire-name resolution (`PrecatoriosCrawler._get_base_field_name`) -/

/-- A character of the regex class `[A-Za-z_0-9]`. -/
def isWordChar (c : Char) : Bool :=
  ('A' ≤ c ∧ c ≤ 'Z') ∨ ('a' ≤ c ∧ c ≤ 'z') ∨ isDigitChar c ∨ c = '_'

/-- Model of `re.match(r"^[A-Za-z_0-9]+\\(([^)]+)\\)$", s)` from
`_get_base_field_name`, returning `group(1)` on a match.  In the raw string
each doubled backslash denotes one literal backslash character, so the
compiled pattern is: one or more word characters, a literal backslash, then
group 1 — one or more non-`)` characters followed by a literal backslash —
then end of input.  A string matches exactly when it decomposes as
`w ++ "\" ++ m ++ "\"` with `w` non-empty word characters and `m` non-empty
and free of `)`; then `group(1) = m ++ "\"`. -/
def aggWrapperMatch (s : String) : Option String :=
  let cs := s.toList
  let w := cs.takeWhile isWordChar
  let rest := cs.drop w.length
  match rest with
  | '\\' :: t =>
      if w ≠ [] ∧ t.getLast? = some '\\' ∧ t.dropLast ≠ [] ∧ t.dropLast.all (· ≠ ')') then
        some (String.mk t)
      else none
  | _ => none

/-- `PrecatoriosCrawler._get_base_field_name`: try the aggregation-wrapper
pattern first; on a match, take the last `.`-separated component of the
captured group, else the captured group; otherwise take the last
`.`-separated component of the whole name, else the whole name. -/
def getBaseFieldName (s : String) : String :=
  match aggWrapperMatch s with
  | some content =>
      if content.toList.contains '.' then
        String.mk ((content.toList.splitOn '.').getLastD content.toList)
      else content
  | none =>
      if s.toList.contains '.' then
        String.mk ((s.toList.splitOn '.').getLastD s.toList)
      else s

/-! ## Entity resolution (`src/entity_mapping.py`) -/

/-- Python `str.lower()` restricted to ASCII plus the accented letters
occurring in the entity table (`Á Ã Ç É Ê Í Ó Ô Ú`); other characters are
left unchanged. -/
def pyLowerChar (c : Char) : Char :=
  if 'A' ≤ c ∧ c ≤ 'Z' then Char.ofNat (c.toNat + 32)
  else match c with
    | 'Á' => 'á' | 'À' => 'à' | 'Â' => 'â' | 'Ã' => 'ã' | 'Ä' => 'ä'
    | 'Ç' => 'ç' | 'É' => 'é' | 'Ê' => 'ê' | 'Í' => 'í' | 'Ó' => 'ó'
    | 'Ô' => 'ô' | 'Õ' => 'õ' | 'Ú' => 'ú' | 'Ü' => 'ü'
    | _ => c

/-- Python `str.upper()` restricted to the same repertoire. -/
def pyUpperChar (c : Char) : Char :=
  if 'a' ≤ c ∧ c ≤ 'z' then Char.ofNat (c.toNat - 32)
  else match c with
    | 'á' => 'Á' | 'à' => 'À' | 'â' => 'Â' | 'ã' => 'Ã' | 'ä' => 'Ä'
    | 'ç' => 'Ç' | 'é' => 'É' | 'ê' => 'Ê' | 'í' => 'Í' | 'ó' => 'Ó'
    | 'ô' => 'Ô' | 'õ' => 'Õ' | 'ú' => 'Ú' | 'ü' => 'Ü'
    | _ => c

/-- The combined effect, on one character, of `unicodedata.normalize("NFKD", ·)`
followed by dropping combining characters, restricted to the accented latin
letters this code base can meet: each precomposed accented letter decomposes
into its base letter plus a combining mark, which is then dropped. -/
def nfkdStripChar (c : Char) : Char :=
  match c with
  | 'á' | 'à' | 'â' | 'ã' | 'ä' => 'a'
  | 'ç' => 'c'
  | 'é' | 'ê' => 'e'
  | 'í' => 'i'
  | 'ó' | 'ô' | 'õ' => 'o'
  | 'ú' | 'ü' => 'u'
  | 'Á' | 'À' | 'Â' | 'Ã' | 'Ä' => 'A'
  | 'Ç' => 'C'
  | 'É' | 'Ê' => 'E'
  | 'Í' => 'I'
  | 'Ó' | 'Ô' | 'Õ' => 'O'
  | 'Ú' | 'Ü' => 'U'
  | _ => c

/-- Collapse every maximal run of characters from `[-\s]` into a single `-`,
modelling `re.sub(r"[-\s]+", "-", text)`. -/
def collapseSepRuns (cs : List Char) : List Char :=
  cs.foldr
    (fun c acc =>
      if isPySpace c ∨ c = '-' then
        match acc with
        | '-' :: _ => acc
        | _ => '-' :: acc
      else c :: acc)
    []

/-- Python `text.strip("-")`. -/
def stripDashes (cs : List Char) : List Char :=
  ((cs.dropWhile (· = '-')).reverse.dropWhile (· = '-')).reverse

/-- `entity_mapping.slugify`: lowercase, strip accents (NFKD plus dropping
combining marks), delete characters outside `[a-z0-9\s-]`, collapse runs of
separators into `-` and strip outer dashes. -/
def slugify (s : String) : String :=
  let lowered := s.toList.map pyLowerChar
  let stripped := lowered.map nfkdStripChar
  let kept := stripped.filter
    (fun c => ('a' ≤ c ∧ c ≤ 'z') ∨ isDigitChar c ∨ isPySpace c ∨ c = '-')
  String.mk (stripDashes (collapseSepRuns kept))

/-- `entity_mapping.unslugify`: replace hyphens by spaces, then uppercase. -/
def unslugify (s : String) : String :=
  String.mk (s.toList.map (fun c => pyUpperChar (if c = '-' then ' ' else c)))

/-- `entity_mapping.ENTITY_MAPPING`: the static slug → official-name table. -/
def ENTITY_MAPPING : List (String × String) :=
  [
    ("autarquia-de-transito-e-transporte-rodoviario-e-urbano-do-municipio-de-quixeramobim", "AUTARQUIA DE TRANSITO E TRANSPORTE RODOVIARIO E URBANO DO MUNICIPIO DE QUIXERAMOBIM"),
    ("casa-de-saude-adilia-maria", "CASA DE SAUDE ADILIA MARIA"),
    ("companhia-brasileira-de-trens-urbanos-cbtu", "COMPANHIA BRASILEIRA DE TRENS URBANOS - CBTU"),
    ("companhia-docas-do-ceara", "COMPANHIA DOCAS DO CEARA"),
    ("consorcio-de-desenvolvimento-da-regiao-do-sertao-central-sul-codessul", "CONSORCIO DE DESENVOLVIMENTO DA REGIAO DO SERTAO CENTRAL SUL - CODESSUL"),
    ("dmutran-departamento-municipal-de-transito-e-rodoviario-de-morada-nova", "DMUTRAN - DEPARTAMENTO MUNICIPAL DE TRANSITO E RODOVIARIO DE MORADA NOVA"),
    ("estado-de-sao-paulo", "ESTADO DE SÃO PAULO"),
    ("estado-do-ceara", "ESTADO DO CEARÁ"),
    ("estado-do-pernambuco", "ESTADO DO PERNAMBUCO"),
    ("fundacao-de-saude-publica-do-municipio-de-iguatu", "FUNDACAO DE SAUDE PUBLICA DO MUNICIPIO DE IGUATU"),
    ("fundacao-universidade-do-amazonas", "FUNDAÇÃO UNIVERSIDADE DO AMAZONAS"),
    ("fundo-municipal-de-previdencia-social-de-palmacia", "FUNDO MUNICIPAL DE PREVIDENCIA SOCIAL DE PALMACIA"),
    ("fundo-municipal-de-previdencia-social-dos-servidores-de-juazeiro-nortece-previjuno", "FUNDO MUNICIPAL DE PREVIDENCIA SOCIAL DOS SERVIDORES DE JUAZEIRO NORTE/CE-PREVIJUNO"),
    ("instituto-de-previdencia-do-municipio-de-acopiara", "INSTITUTO DE PREVIDENCIA DO MUNICIPIO DE ACOPIARA"),
    ("instituto-de-previdencia-do-municipio-de-boa-viagem-ipmbv", "INSTITUTO DE PREVIDENCIA DO MUNICIPIO DE BOA VIAGEM - IPMBV"),
    ("instituto-de-previdencia-do-municipio-de-caucaia-ipmc", "INSTITUTO DE PREVIDENCIA DO MUNICIPIO DE CAUCAIA - IPMC"),
    ("instituto-de-previdencia-do-municipio-de-maracanau-ipm-maracanau", "INSTITUTO DE PREVIDENCIA DO MUNICIPIO DE MARACANAU - IPM MARACANAU"),
    ("instituto-de-previdencia-do-municipio-de-taua-ipmt", "INSTITUTO DE PREVIDENCIA DO MUNICIPIO DE TAUA - IPMT"),
    ("instituto-de-previdencia-dos-servidores-municipais-de-itapipoca-itaprev", "INSTITUTO DE PREVIDENCIA DOS SERVIDORES MUNICIPAIS DE ITAPIPOCA - ITAPREV"),
    ("instituto-de-previdencia-dos-servidores-municipais-de-morada-nova-ipremn", "INSTITUTO DE PREVIDENCIA DOS SERVIDORES MUNICIPAIS DE MORADA NOVA - IPREMN"),
    ("instituto-de-previdencia-dos-servidores-publicos-municipais-de-ibicuitinga", "INSTITUTO DE PREVIDENCIA DOS SERVIDORES PUBLICOS MUNICIPAIS DE IBICUITINGA"),
    ("instituto-nacional-do-seguro-social-inss", "INSTITUTO NACIONAL DO SEGURO SOCIAL - INSS"),
    ("municipio-de-boquira-ba", "MUNICIPIO DE BOQUIRA - BA"),
    ("municipio-de-abaiara", "MUNICÍPIO DE ABAIARA"),
    ("municipio-de-acarape", "MUNICÍPIO DE ACARAPE"),
    ("municipio-de-acarau", "MUNICÍPIO DE ACARAU"),
    ("municipio-de-acopiara", "MUNICÍPIO DE ACOPIARA"),
    ("municipio-de-aiuaba", "MUNICÍPIO DE AIUABA"),
    ("municipio-de-alcantaras", "MUNICÍPIO DE ALCANTARAS"),
    ("municipio-de-altaneira", "MUNICÍPIO DE ALTANEIRA"),
    ("municipio-de-alto-santo", "MUNICÍPIO DE ALTO SANTO"),
    ("municipio-de-amontada", "MUNICÍPIO DE AMONTADA"),
    ("municipio-de-antonina-do-norte", "MUNICÍPIO DE ANTONINA DO NORTE"),
    ("municipio-de-apuiares", "MUNICÍPIO DE APUIARES"),
    ("municipio-de-aquiraz", "MUNICÍPIO DE AQUIRAZ"),
    ("municipio-de-aracati", "MUNICÍPIO DE ARACATI"),
    ("municipio-de-aracoiaba", "MUNICÍPIO DE ARACOIABA"),
    ("municipio-de-ararenda", "MUNICÍPIO DE ARARENDA"),
    ("municipio-de-araripe", "MUNICÍPIO DE ARARIPE"),
    ("municipio-de-aratuba", "MUNICÍPIO DE ARATUBA"),
    ("municipio-de-arneiroz", "MUNICÍPIO DE ARNEIROZ"),
    ("municipio-de-assare", "MUNICÍPIO DE ASSARE"),
    ("municipio-de-aurora", "MUNICÍPIO DE AURORA"),
    ("municipio-de-baixio", "MUNICÍPIO DE BAIXIO"),
    ("municipio-de-banabuiu", "MUNICÍPIO DE BANABUIU"),
    ("municipio-de-barbalha", "MUNICÍPIO DE BARBALHA"),
    ("municipio-de-barreira", "MUNICÍPIO DE BARREIRA"),
    ("municipio-de-barro", "MUNICÍPIO DE BARRO"),
    ("municipio-de-barroquinha", "MUNICÍPIO DE BARROQUINHA"),
    ("municipio-de-baturite", "MUNICÍPIO DE BATURITE"),
    ("municipio-de-beberibe", "MUNICÍPIO DE BEBERIBE"),
    ("municipio-de-bela-cruz", "MUNICÍPIO DE BELA CRUZ"),
    ("municipio-de-boa-viagem", "MUNICÍPIO DE BOA VIAGEM"),
    ("municipio-de-brejo-santo", "MUNICÍPIO DE BREJO SANTO"),
    ("municipio-de-camocim", "MUNICÍPIO DE CAMOCIM"),
    ("municipio-de-campos-sales", "MUNICÍPIO DE CAMPOS SALES"),
    ("municipio-de-caninde", "MUNICÍPIO DE CANINDE"),
    ("municipio-de-capistrano", "MUNICÍPIO DE CAPISTRANO"),
    ("municipio-de-caridade", "MUNICÍPIO DE CARIDADE"),
    ("municipio-de-carire", "MUNICÍPIO DE CARIRE"),
    ("municipio-de-caririacu", "MUNICÍPIO DE CARIRIAÇU"),
    ("municipio-de-carius", "MUNICÍPIO DE CARIUS"),
    ("municipio-de-carnaubal", "MUNICÍPIO DE CARNAUBAL"),
    ("municipio-de-cascavel", "MUNICÍPIO DE CASCAVEL"),
    ("municipio-de-catarina", "MUNICÍPIO DE CATARINA"),
    ("municipio-de-catunda", "MUNICÍPIO DE CATUNDA"),
    ("municipio-de-caucaia", "MUNICÍPIO DE CAUCAIA"),
    ("municipio-de-cedro", "MUNICÍPIO DE CEDRO"),
    ("municipio-de-chaval", "MUNICÍPIO DE CHAVAL"),
    ("municipio-de-choro", "MUNICÍPIO DE CHORO"),
    ("municipio-de-chorozinho", "MUNICÍPIO DE CHOROZINHO"),
    ("municipio-de-coreau", "MUNICÍPIO DE COREAU"),
    ("municipio-de-crateus", "MUNICÍPIO DE CRATEUS"),
    ("municipio-de-crato", "MUNICÍPIO DE CRATO"),
    ("municipio-de-croata", "MUNICÍPIO DE CROATA"),
    ("municipio-de-cruz", "MUNICÍPIO DE CRUZ"),
    ("municipio-de-deputado-irapuan-pinheiro", "MUNICÍPIO DE DEPUTADO IRAPUAN PINHEIRO"),
    ("municipio-de-erere", "MUNICÍPIO DE ERERE"),
    ("municipio-de-eusebio", "MUNICÍPIO DE EUSEBIO"),
    ("municipio-de-farias-brito", "MUNICÍPIO DE FARIAS BRITO"),
    ("municipio-de-forquilha", "MUNICÍPIO DE FORQUILHA"),
    ("municipio-de-fortaleza", "MUNICÍPIO DE FORTALEZA"),
    ("municipio-de-fortim", "MUNICÍPIO DE FORTIM"),
    ("municipio-de-frecheirinha", "MUNICÍPIO DE FRECHEIRINHA"),
    ("municipio-de-general-sampaio", "MUNICÍPIO DE GENERAL SAMPAIO"),
    ("municipio-de-granja", "MUNICÍPIO DE GRANJA"),
    ("municipio-de-granjeiro", "MUNICÍPIO DE GRANJEIRO"),
    ("municipio-de-graca", "MUNICÍPIO DE GRAÇA"),
    ("municipio-de-groairas", "MUNICÍPIO DE GROAIRAS"),
    ("municipio-de-guaiuba", "MUNICÍPIO DE GUAIUBA"),
    ("municipio-de-guaraciaba-do-norte", "MUNICÍPIO DE GUARACIABA DO NORTE"),
    ("municipio-de-guaramiranga", "MUNICÍPIO DE GUARAMIRANGA"),
    ("municipio-de-hidrolandia", "MUNICÍPIO DE HIDROLANDIA"),
    ("municipio-de-horizonte", "MUNICÍPIO DE HORIZONTE"),
    ("municipio-de-ibaretama", "MUNICÍPIO DE IBARETAMA"),
    ("municipio-de-ibiapina", "MUNICÍPIO DE IBIAPINA"),
    ("municipio-de-ibicuitinga", "MUNICÍPIO DE IBICUITINGA"),
    ("municipio-de-icapui", "MUNICÍPIO DE ICAPUI"),
    ("municipio-de-ico", "MUNICÍPIO DE ICO"),
    ("municipio-de-iguatu", "MUNICÍPIO DE IGUATU"),
    ("municipio-de-independencia", "MUNICÍPIO DE INDEPENDENCIA"),
    ("municipio-de-ipaporanga", "MUNICÍPIO DE IPAPORANGA"),
    ("municipio-de-ipaumirim", "MUNICÍPIO DE IPAUMIRIM"),
    ("municipio-de-ipu", "MUNICÍPIO DE IPU"),
    ("municipio-de-ipueiras", "MUNICÍPIO DE IPUEIRAS"),
    ("municipio-de-iracema", "MUNICÍPIO DE IRACEMA"),
    ("municipio-de-iraucuba", "MUNICÍPIO DE IRAUÇUBA"),
    ("municipio-de-itaicaba", "MUNICÍPIO DE ITAIÇABA"),
    ("municipio-de-itaitinga", "MUNICÍPIO DE ITAITINGA"),
    ("municipio-de-itapaje", "MUNICÍPIO DE ITAPAJÉ"),
    ("municipio-de-itapipoca", "MUNICÍPIO DE ITAPIPOCA"),
    ("municipio-de-itapiuna", "MUNICÍPIO DE ITAPIÚNA"),
    ("municipio-de-itarema", "MUNICÍPIO DE ITAREMA"),
    ("municipio-de-itatira", "MUNICÍPIO DE ITATIRA"),
    ("municipio-de-jaguaretama", "MUNICÍPIO DE JAGUARETAMA"),
    ("municipio-de-jaguaribara", "MUNICÍPIO DE JAGUARIBARA"),
    ("municipio-de-jaguaribe", "MUNICÍPIO DE JAGUARIBE"),
    ("municipio-de-jaguaruana", "MUNICÍPIO DE JAGUARUANA"),
    ("municipio-de-jardim", "MUNICÍPIO DE JARDIM"),
    ("municipio-de-jati", "MUNICÍPIO DE JATI"),
    ("municipio-de-jijoca-de-jericoacoara", "MUNICÍPIO DE JIJOCA DE JERICOACOARA"),
    ("municipio-de-juazeiro-do-norte", "MUNICÍPIO DE JUAZEIRO DO NORTE"),
    ("municipio-de-jucas", "MUNICÍPIO DE JUCÁS"),
    ("municipio-de-lavras-da-mangabeira", "MUNICÍPIO DE LAVRAS DA MANGABEIRA"),
    ("municipio-de-limoeiro-do-norte", "MUNICÍPIO DE LIMOEIRO DO NORTE"),
    ("municipio-de-madalena", "MUNICÍPIO DE MADALENA"),
    ("municipio-de-maracanau", "MUNICÍPIO DE MARACANAÚ"),
    ("municipio-de-marco", "MUNICÍPIO DE MARCO"),
    ("municipio-de-martinopole", "MUNICÍPIO DE MARTINÓPOLE"),
    ("municipio-de-massape", "MUNICÍPIO DE MASSAPÊ"),
    ("municipio-de-mauriti", "MUNICÍPIO DE MAURITI"),
    ("municipio-de-meruoca", "MUNICÍPIO DE MERUOCA"),
    ("municipio-de-milagres", "MUNICÍPIO DE MILAGRES"),
    ("municipio-de-milha", "MUNICÍPIO DE MILHÃ"),
    ("municipio-de-miraima", "MUNICÍPIO DE MIRAÍMA"),
    ("municipio-de-missao-velha", "MUNICÍPIO DE MISSÃO VELHA"),
    ("municipio-de-mombaca", "MUNICÍPIO DE MOMBAÇA"),
    ("municipio-de-monsenhor-tabosa", "MUNICÍPIO DE MONSENHOR TABOSA"),
    ("municipio-de-morada-nova", "MUNICÍPIO DE MORADA NOVA"),
    ("municipio-de-moraujo", "MUNICÍPIO DE MORAÚJO"),
    ("municipio-de-morrinhos", "MUNICÍPIO DE MORRINHOS"),
    ("municipio-de-mucambo", "MUNICÍPIO DE MUCAMBO"),
    ("municipio-de-mulungu", "MUNICÍPIO DE MULUNGU"),
    ("municipio-de-nova-olinda", "MUNICÍPIO DE NOVA OLINDA"),
    ("municipio-de-nova-russas", "MUNICÍPIO DE NOVA RUSSAS"),
    ("municipio-de-novo-oriente", "MUNICÍPIO DE NOVO ORIENTE"),
    ("municipio-de-ocara", "MUNICÍPIO DE OCARA"),
    ("municipio-de-oros", "MUNICÍPIO DE ORÓS"),
    ("municipio-de-pacajus", "MUNICÍPIO DE PACAJUS"),
    ("municipio-de-pacatuba", "MUNICÍPIO DE PACATUBA"),
    ("municipio-de-pacoti", "MUNICÍPIO DE PACOTI"),
    ("municipio-de-pacuja", "MUNICÍPIO DE PACUJÁ"),
    ("municipio-de-palhano", "MUNICÍPIO DE PALHANO"),
    ("municipio-de-palmacia", "MUNICÍPIO DE PALMÁCIA"),
    ("municipio-de-paracuru", "MUNICÍPIO DE PARACURU"),
    ("municipio-de-paraipaba", "MUNICÍPIO DE PARAIPABA"),
    ("municipio-de-parambu", "MUNICÍPIO DE PARAMBU"),
    ("municipio-de-paramoti", "MUNICÍPIO DE PARAMOTI"),
    ("municipio-de-pedra-branca", "MUNICÍPIO DE PEDRA BRANCA"),
    ("municipio-de-penaforte", "MUNICÍPIO DE PENAFORTE"),
    ("municipio-de-pentecoste", "MUNICÍPIO DE PENTECOSTE"),
    ("municipio-de-pereiro", "MUNICÍPIO DE PEREIRO"),
    ("municipio-de-pindoretama", "MUNICÍPIO DE PINDORETAMA"),
    ("municipio-de-piquet-carneiro", "MUNICÍPIO DE PIQUET CARNEIRO"),
    ("municipio-de-pires-ferreira", "MUNICÍPIO DE PIRES FERREIRA"),
    ("municipio-de-poranga", "MUNICÍPIO DE PORANGA"),
    ("municipio-de-porteiras", "MUNICÍPIO DE PORTEIRAS"),
    ("municipio-de-potengi", "MUNICÍPIO DE POTENGI"),
    ("municipio-de-potiretama", "MUNICÍPIO DE POTIRETAMA"),
    ("municipio-de-quiterianopolis", "MUNICÍPIO DE QUITERIANÓPOLIS"),
    ("municipio-de-quixada", "MUNICÍPIO DE QUIXADÁ"),
    ("municipio-de-quixelo", "MUNICÍPIO DE QUIXELÔ"),
    ("municipio-de-quixeramobim", "MUNICÍPIO DE QUIXERAMOBIM"),
    ("municipio-de-quixere", "MUNICÍPIO DE QUIXERÉ"),
    ("municipio-de-redencao", "MUNICÍPIO DE REDENÇÃO"),
    ("municipio-de-reriutaba", "MUNICÍPIO DE RERIUTABA"),
    ("municipio-de-russas", "MUNICÍPIO DE RUSSAS"),
    ("municipio-de-salitre", "MUNICÍPIO DE SALITRE"),
    ("municipio-de-santa-quiteria", "MUNICÍPIO DE SANTA QUITÉRIA"),
    ("municipio-de-santana-do-acarau", "MUNICÍPIO DE SANTANA DO ACARAÚ"),
    ("municipio-de-santana-do-cariri", "MUNICÍPIO DE SANTANA DO CARIRI"),
    ("municipio-de-sao-benedito", "MUNICÍPIO DE SÃO BENEDITO"),
    ("municipio-de-sao-goncalo-do-amarante", "MUNICÍPIO DE SÃO GONÇALO DO AMARANTE"),
    ("municipio-de-sao-joao-do-jaguaribe", "MUNICÍPIO DE SÃO JOÃO DO JAGUARIBE"),
    ("municipio-de-sao-luis-do-curu", "MUNICÍPIO DE SÃO LUÍS DO CURU"),
    ("municipio-de-senador-pompeu", "MUNICÍPIO DE SENADOR POMPEU"),
    ("municipio-de-senador-sa", "MUNICÍPIO DE SENADOR SÁ"),
    ("municipio-de-sobral", "MUNICÍPIO DE SOBRAL"),
    ("municipio-de-solonopole", "MUNICÍPIO DE SOLONÓPOLE"),
    ("municipio-de-tabuleiro-do-norte", "MUNICÍPIO DE TABULEIRO DO NORTE"),
    ("municipio-de-tamboril", "MUNICÍPIO DE TAMBORIL"),
    ("municipio-de-tarrafas", "MUNICÍPIO DE TARRAFAS"),
    ("municipio-de-taua", "MUNICÍPIO DE TAUÁ"),
    ("municipio-de-tejucuoca", "MUNICÍPIO DE TEJUÇUOCA"),
    ("municipio-de-tiangua", "MUNICÍPIO DE TIANGUÁ"),
    ("municipio-de-trairi", "MUNICÍPIO DE TRAIRI"),
    ("municipio-de-tururu", "MUNICÍPIO DE TURURU"),
    ("municipio-de-ubajara", "MUNICÍPIO DE UBAJARA"),
    ("municipio-de-umari", "MUNICÍPIO DE UMARI"),
    ("municipio-de-umirim", "MUNICÍPIO DE UMIRIM"),
    ("municipio-de-uruburetama", "MUNICÍPIO DE URUBURETAMA"),
    ("municipio-de-uruoca", "MUNICÍPIO DE URUOCA"),
    ("municipio-de-varjota", "MUNICÍPIO DE VARJOTA"),
    ("municipio-de-varzea-alegre", "MUNICÍPIO DE VÁRZEA ALEGRE"),
    ("municipio-de-vicosa-do-ceara", "MUNICÍPIO DE VIÇOSA DO CEARÁ")
  ]

/-- Dictionary lookup `ENTITY_MAPPING[slug]` as an `Option`. -/
def entityMappingLookup (slug : String) : Option String :=
  (ENTITY_MAPPING.find? (fun kv => kv.1 = slug)).map (·.2)

/-- `entity_mapping.validate_entity_slug`: `slugify(slug) in ENTITY_MAPPING`. -/
def validateEntitySlug (slug : String) : Bool :=
  (entityMappingLookup (slugify slug)).isSome

/-- `entity_mapping.get_api_entity_name`: normalize the incoming slug, look it
up in the static table, and otherwise synthesize a display name by reversing
the normalization (`unslugify`). -/
def getApiEntityName (slug : String) : String :=
  match entityMappingLookup (slugify slug) with
  | some name => name
  | none => unslugify (slugify slug)

/-! ## Numeric coercion (`PrecatoriosCrawler._format_value`, numeric branch) -/

/-- Index of the last occurrence of `c`, modelling Python `s.rfind(c)` on the
strings where it is known to occur. -/
def lastIdxOf (cs : List Char) (c : Char) : Option Nat :=
  (List.range cs.length).foldl
    (fun acc i => if cs.get? i = some c then some i else acc) none

/-- Python `s.replace("R$", "")`: delete every (non-overlapping, leftmost
first) occurrence of the currency prefix. -/
def removeCurrencyMarks : List Char → List Char
  | [] => []
  | 'R' :: '$' :: rest => removeCurrencyMarks rest
  | c :: rest => c :: removeCurrencyMarks rest

/-- The numeric branch of `_format_value` for the `float`/`Decimal` field
types, returning the parsed value instead of its `str()` rendering: after the
early empty/None check, strip the `R$` currency marks and whitespace; when
both `,` and `.` occur and the last `.` comes before the last `,`, drop the
dots and turn the commas into dots; when only `,` occurs, turn it into a dot;
then parse as a float, defaulting to 0 when parsing raises. -/
def coerceDecimal (value : String) : Rat :=
  let vcs := value.toList
  if pyStripChars vcs = [] ∨ vcs.map Char.toLower = "none".toList then 0
  else
    let temp := pyStripChars (removeCurrencyMarks vcs)
    let temp2 :=
      if temp.contains ',' ∧ temp.contains '.' then
        if (lastIdxOf temp '.').getD 0 < (lastIdxOf temp ',').getD 0 then
          (temp.filter (· ≠ '.')).map (fun c => if c = ',' then '.' else c)
        else temp
      else if temp.contains ',' then temp.map (fun c => if c = ',' then '.' else c)
      else temp
    (pyFloatChars temp2).getD 0

/-! ## Date coercion (`PrecatoriosCrawler._format_value`, date branch) -/

/-- The outcome of the date branch of `_format_value`.  `empty` stands for
the source returning the empty string (handed to Pydantic, which turns it
into a null `data_cadastro`); the other constructors record which parsing
path produced the returned `str(datetime(...))` value and from which data,
leaving the calendar rendering itself abstract. -/
inductive DateResult where
  | empty : DateResult
  | tuple (components : List Int) : DateResult
  | epochMs (ts : Rat) : DateResult
  | epochSec (ts : Rat) : DateResult
  | excelSerial (ts : Rat) : DateResult
deriving Repr, DecidableEq

/-- Does `pat` occur as a contiguous subsequence of `cs`? -/
def containsSeq (cs pat : List Char) : Bool :=
  match cs with
  | [] => pat.isEmpty
  | _ :: rest => pat.isPrefixOf cs || containsSeq rest pat

/-- Case-insensitive character comparison (ASCII), for `re.IGNORECASE`. -/
def charCI (a b : Char) : Bool := a.toLower = b.toLower

/-- Try to match, at the head of `cs`, the compiled form of the pattern
`r"datetime\\s*\\(([^)]+)\\)"` from `_format_value`.  The doubled
backslashes each denote one literal backslash, so the compiled pattern is:
`datetime` (case-insensitive), a literal backslash, zero or more `s`, a
literal backslash, then group 1 — one or more non-`)` characters followed by
a literal backslash.  On success the capture of group 1 is returned: the
greedy `[^)]+` makes it end at the last backslash in the run of non-`)`
characters. -/
def matchDatetimeAt (cs : List Char) : Option (List Char) :=
  let lit := "datetime".toList
  if (cs.take 8).length == 8 && (((cs.take 8).zip lit).all fun p => charCI p.1 p.2) then
    match cs.drop 8 with
    | '\\' :: t =>
        match t.dropWhile (fun c => charCI c 's') with
        | '\\' :: r =>
            let zone := r.takeWhile (· ≠ ')')
            match lastIdxOf zone '\\' with
            | some i => if 1 ≤ i then some (zone.take (i + 1)) else none
            | none => none
        | _ => none
    | _ => none
  else none

/-- `re.search` for the pattern above: the match attempt at the leftmost
feasible position wins. -/
def searchDatetimeGroup : List Char → Option (List Char)
  | [] => none
  | c :: rest =>
      match matchDatetimeAt (c :: rest) with
      | some g => some g
      | none => searchDatetimeGroup rest

/-- The date branch of `_format_value` on a string input: after the early
empty/None check, (1) when the lowered string contains `datetime`, try the
(backslash-requiring) tuple pattern, parsing the comma-separated capture as
integers — at least three are required, and a zero month is bumped to one;
(2) otherwise parse the whole string as a float and classify it as epoch
milliseconds, epoch seconds (a range that is in fact unsatisfiable, kept as
in the source), or an Excel serial date; anything else yields the empty
string.  Calendar validity of the tuple is not re-checked here: the capture
of the tuple pattern always ends in a backslash, so its last component never
parses as an integer and the `tuple` constructor is in fact unreachable. -/
def formatValueDate (value : String) : DateResult :=
  let vcs := value.toList
  if pyStripChars vcs = [] ∨ vcs.map Char.toLower = "none".toList then .empty
  else
    let numeric : DateResult :=
      match pyFloatChars vcs with
      | some ts =>
          if ratLtB (mkRat 100000000000 1) ts ∧ ratLtB ts (mkRat 300000000000000 1) then
            .epochMs ts
          else if ratLtB (mkRat 1000000000 1) ts ∧ ratLtB ts (mkRat 300000000 1) then
            .epochSec ts
          else if ratLtB (mkRat 1 1) ts ∧ ratLtB ts (mkRat 80000 1) then
            .excelSerial ts
          else .empty
      | none => .empty
    if containsSeq (vcs.map Char.toLower) "datetime".toList then
      match searchDatetimeGroup vcs with
      | some grp =>
          let comps := (grp.splitOn ',').map (fun c => pyInt (String.mk c))
          if comps.all Option.isSome ∧ 3 ≤ comps.length then
            let vals := comps.map (fun o => o.getD 0)
            .tuple (match vals with
              | a :: b :: rest => if b = 0 then a :: 1 :: rest else a :: b :: rest
              | other => other)
          else .empty
      | none => numeric
    else numeric

/-! ## Row decoding (`PrecatoriosCrawler.normalize_to_rows`)

The decoded row under construction (`pydantic_input_row`) is a Python dict
from CSV field names to already-formatted values; insertion-ordered
association lists model it.  The value formatter `_format_value` and the
escape decoder `_decode_utf8` are passed as parameters `fmt` and `dec`; the
decoder stores `fmt v ty` wrapped as a JSON string, exactly where the source
stores `_format_value(v, ty)`.  Aborting exceptions (attribute accesses on
non-dict data), which the source turns into a skip of the rest of the page,
are modelled by `none` results. -/

/-- A decoded row: Python dict from CSV field name to stored value. -/
abbrev RowMap := List (String × Json)

/-- Python dict assignment `m[k] = v`: replace the bound value in place when
the key exists (dicts hold each key once), append at the end otherwise. -/
def setField : RowMap → String → Json → RowMap
  | [], k, v => [(k, v)]
  | kv :: rest, k, v => if kv.1 = k then (k, v) :: rest else kv :: setField rest k v

/-- Python dict lookup `m.get(k)`. -/
def getField (m : RowMap) (k : String) : Option Json :=
  (m.find? (fun kv => kv.1 = k)).map (·.2)

/-- Severity of a log call in the source. -/
inductive Severity where
  | debug | info | warning | error
deriving DecidableEq, Repr

/-- One emitted log event, named after the call site in
`normalize_to_rows`. -/
structure LogEvent where
  severity : Severity
  site : String
deriving DecidableEq, Repr

/-- The freshly initialised `pydantic_input_row`: every configured CSV field
set to `_format_value(default, type)`. -/
def initRow (fmt : Json → String → String) : RowMap :=
  fieldMapping.map (fun c => (c.csvField, Json.str (fmt (defaultJson c) c.ty)))

/-- Python `(rulifier_r >> col_idx) & 1` on an unbounded integer. -/
def pyBit (r : Int) (i : Nat) : Bool :=
  (Int.fdiv r (2 ^ i : Nat)) % 2 ≠ 0

/-- `value_dicts.get(dict_name)` / `value_dicts[dict_name]` when the
dictionary name is a JSON value: only string names can be bound. -/
def vdFind (valueDicts : Json) (dictName : Json) : Option Json :=
  match dictName with
  | .str dn => valueDicts.find? dn
  | _ => none

/-- The descriptor/`Name` access shared by base and delta column loops:
`global_descriptor_selects[col_idx].get("Name")` followed by
`_get_base_field_name` and the CSV mapping lookup.  `none` models the raised
`TypeError` when the descriptor is not a dict or its name is missing or not a
string (`re.match` on a non-string); `some none` is an unmapped column. -/
def lookupColCfg (descs : List Json) (colIdx : Nat) : Option (Option FieldCfg) :=
  match descs.getD colIdx .null with
  | .obj dfs =>
      match (dfs.find? (fun kv => kv.1 = "Name")).map (·.2) with
      | some (Json.str apiName) => some (apiMapLookup (getBaseFieldName apiName))
      | _ => none
  | _ => none

/-- The base-row column loop of `normalize_to_rows` (the `i == 0` branch):
walk the row schema positionally; for each column, look the wire value up by
index, resolve the descriptor name to a CSV field, and either resolve the
value through the named `ValueDict` (when the schema entry carries a truthy
`DN`) or take it literally; resolution failures log a warning and leave the
initialised default in place.  Returns the finished row together with the
emitted log events, or `none` when an exception aborts the page. -/
def decodeBaseCols (fmt : Json → String → String) (dec : String → String)
    (valueDicts : Json) (descs : List Json) (cValues : List Json) :
    List Json → Nat → RowMap → Option (RowMap × List LogEvent)
  | [], _, row => some (row, [])
  | item :: rest, colIdx, row =>
    let skip := fun (ev : LogEvent) =>
      (decodeBaseCols fmt dec valueDicts descs cValues rest (colIdx + 1) row).map
        (fun p => (p.1, ev :: p.2))
    if cValues.length ≤ colIdx then
      skip ⟨.warning, "c_idx_oob"⟩
    else if descs.length ≤ colIdx then
      skip ⟨.warning, "desc_idx_oob"⟩
    else
      let raw := cValues.getD colIdx .null
      match lookupColCfg descs colIdx with
      | none => none
      | some none => decodeBaseCols fmt dec valueDicts descs cValues rest (colIdx + 1) row
      | some (some cfg) =>
        match item with
        | .obj sfs =>
          let dictName := ((sfs.find? (fun kv => kv.1 = "DN")).map (·.2)).getD .null
          let assign := fun (v : Json) =>
            let formatted := fmt (match v with
              | .null => Json.null
              | w => .str (dec (pyStr w))) cfg.ty
            decodeBaseCols fmt dec valueDicts descs cValues rest (colIdx + 1)
              (setField row cfg.csvField (.str formatted))
          if dictName.truthy then
            match pyIntOfJson raw with
            | some idx =>
              match valueDicts with
              | .obj _ =>
                  match vdFind valueDicts dictName with
                  | some (.arr lst) =>
                      if 0 ≤ idx ∧ idx.toNat < lst.length then
                        assign (lst.getD idx.toNat .null)
                      else skip ⟨.warning, "vd_index_oob"⟩
                  | _ => skip ⟨.warning, "vd_index_oob"⟩
              | _ => none
            | none => skip ⟨.warning, "vd_value_not_int"⟩
          else assign raw
        | _ => none

/-- The delta-row column loop of `normalize_to_rows` (the `i > 0` branch with
a rulifier): the row starts as a copy of the previous decoded row; columns
whose rulifier bit is set inherit; columns whose bit is clear consume the
next sparse value, which is stored literally when it is a string, resolved
through the `DN` dictionary when it is an integer with a valid index,
inherited (with a warning) when the dictionary reference is unusable, taken
literally through `str()` when the column carries no dictionary, and
inherited (with an error log) for any other value type.  A consumed position
advances the sparse cursor; an exhausted sparse list forces inheritance with
an error log and does not advance the cursor. -/
def decodeDeltaCols (fmt : Json → String → String) (dec : String → String)
    (valueDicts : Json) (descs : List Json) (prev : RowMap) (r : Int)
    (cDelta : List Json) :
    List Json → Nat → Nat → RowMap → Option (RowMap × List LogEvent)
  | [], _, _, row => some (row, [])
  | item :: rest, colIdx, cIdx, row =>
    let skip := fun (ev : LogEvent) =>
      (decodeDeltaCols fmt dec valueDicts descs prev r cDelta rest (colIdx + 1) cIdx row).map
        (fun p => (p.1, ev :: p.2))
    if descs.length ≤ colIdx then
      skip ⟨.warning, "desc_idx_oob"⟩
    else
      match lookupColCfg descs colIdx with
      | none => none
      | some none =>
          decodeDeltaCols fmt dec valueDicts descs prev r cDelta rest (colIdx + 1) cIdx row
      | some (some cfg) =>
        if pyBit r colIdx then
          decodeDeltaCols fmt dec valueDicts descs prev r cDelta rest (colIdx + 1) cIdx row
        else if cDelta.length ≤ cIdx then
          let fallback := (getField prev cfg.csvField).getD (.str (fmt (defaultJson cfg) cfg.ty))
          (decodeDeltaCols fmt dec valueDicts descs prev r cDelta rest (colIdx + 1) cIdx
            (setField row cfg.csvField fallback)).map
            (fun p => (p.1, (⟨.error, "sparse_exhausted"⟩ : LogEvent) :: p.2))
        else
          let raw := cDelta.getD cIdx .null
          let consume := fun (v : Json) (evs : List LogEvent) =>
            (decodeDeltaCols fmt dec valueDicts descs prev r cDelta rest (colIdx + 1) (cIdx + 1)
              (setField row cfg.csvField v)).map
              (fun p => (p.1, evs ++ p.2))
          let inheritRaw := (getField prev cfg.csvField).getD (defaultJson cfg)
          let dictIndexed := fun (n : Int) =>
            match item with
            | .obj sfs =>
              let dictName := ((sfs.find? (fun kv => kv.1 = "DN")).map (·.2)).getD .null
              if dictName.truthy then
                match valueDicts with
                | .obj _ =>
                    match vdFind valueDicts dictName with
                    | some (.arr lst) =>
                        if 0 ≤ n ∧ n.toNat < lst.length then
                          consume (.str (fmt (lst.getD n.toNat .null) cfg.ty)) []
                        else consume inheritRaw [⟨.warning, "vd_delta_index_oob"⟩]
                    | some _ => none
                    | none => consume inheritRaw [⟨.warning, "vd_delta_index_oob"⟩]
                | _ => none
              else consume (.str (fmt (.str (pyStr raw)) cfg.ty)) []
            | _ => none
          let dictFloat :=
            match item with
            | .obj sfs =>
              let dictName := ((sfs.find? (fun kv => kv.1 = "DN")).map (·.2)).getD .null
              if dictName.truthy then
                match valueDicts with
                | .obj _ => consume inheritRaw [⟨.warning, "vd_delta_index_oob"⟩]
                | _ => none
              else consume (.str (fmt (.str (pyStr raw)) cfg.ty)) []
            | _ => none
          match raw with
          | .str s => consume (.str (fmt (.str s) cfg.ty)) []
          | .int n => dictIndexed n
          | .bool b => dictIndexed (if b then 1 else 0)
          | .num _ => dictFloat
          | _ => consume inheritRaw [⟨.error, "unexpected_delta_type"⟩]

/-- The base-row decode: the freshly initialised default row, updated by the
base column loop. -/
def decodeBaseRow (fmt : Json → String → String) (dec : String → String)
    (valueDicts : Json) (descs : List Json) (sSchema cValues : List Json) :
    Option (RowMap × List LogEvent) :=
  decodeBaseCols fmt dec valueDicts descs cValues sSchema 0 (initRow fmt)

/-- The delta-row decode: a copy of the previous decoded row, updated by the
delta column loop under inherit mask `r` and sparse values `cDelta`. -/
def decodeDeltaRow (fmt : Json → String → String) (dec : String → String)
    (valueDicts : Json) (descs : List Json) (sSchema : List Json) (r : Int)
    (cDelta : List Json) (prev : RowMap) : Option (RowMap × List LogEvent) :=
  decodeDeltaCols fmt dec valueDicts descs prev r cDelta sSchema 0 0 prev

/-! ## Page processing and `normalize_to_rows` -/

/-- The per-row Pydantic step: validate/clean the decoded row (`pyd` models
`Precatorio(**row).dict()`, `none` a `ValidationError`), and on success
advance the order counter and overwrite the `ordem` key with it
(`dumped_row["ordem"] = current_order_in_normalized_list`). -/
def pydStep (pyd : RowMap → Option RowMap) (row : RowMap) (order : Nat) :
    List RowMap × Nat :=
  match pyd row with
  | some r => ([setField r "ordem" (.int (order + 1))], order + 1)
  | none => ([], order)

/-- The delta-row portion of the row loop: process the remaining rows of a
page after the base row, threading the previous decoded row and the order
counter.  A row with no rulifier inherits everything; a decode abort
(exception) stops the page, keeping the rows already produced. -/
def processDeltas (fmt : Json → String → String) (dec : String → String)
    (pyd : RowMap → Option RowMap) (valueDicts : Json) (descs : List Json)
    (sSchema : List Json) :
    List Json → RowMap → Nat → List RowMap × Nat
  | [], _, order => ([], order)
  | rowJson :: rest, last, order =>
    match rowJson.pyGet "C" (.arr []) with
    | none => ([], order)
    | some cJson =>
      match cJson with
      | .arr cDelta =>
        if last.isEmpty then
          processDeltas fmt dec pyd valueDicts descs sSchema rest last order
        else
          let continueWith := fun (row : RowMap) =>
            let (outs, order2) := pydStep pyd row order
            let (moreOuts, order3) :=
              processDeltas fmt dec pyd valueDicts descs sSchema rest row order2
            (outs ++ moreOuts, order3)
          match rowJson.pyGet "R" .null with
          | none => ([], order)
          | some rJson =>
            match rJson with
            | .null => continueWith last
            | .int r =>
                match decodeDeltaRow fmt dec valueDicts descs sSchema r cDelta last with
                | none => ([], order)
                | some (row, _) => continueWith row
            | .bool b =>
                match decodeDeltaRow fmt dec valueDicts descs sSchema
                    (if b then 1 else 0) cDelta last with
                | none => ([], order)
                | some (row, _) => continueWith row
            | _ => ([], order)
      | _ => ([], order)

/-- The row loop of `normalize_to_rows` for one page: the first row
establishes the row schema `S` (invalid or missing schema aborts the page); a
`C`/`S` length mismatch skips the base row, leaving an empty previous row
that makes every delta row skip; otherwise the base row is decoded, passed
through the Pydantic step, and the remaining rows are processed as delta
rows. -/
def processPage (fmt : Json → String → String) (dec : String → String)
    (pyd : RowMap → Option RowMap) (valueDicts : Json) (descs : List Json)
    (dataRows : List Json) (order : Nat) : List RowMap × Nat :=
  match dataRows with
  | [] => ([], order)
  | baseRow :: deltas =>
    match baseRow.pyGet "C" (.arr []) with
    | none => ([], order)
    | some cJson =>
      match cJson with
      | .arr cValues =>
        match baseRow.pyGet "S" .null with
        | none => ([], order)
        | some sJson =>
          match sJson with
          | .arr (s0 :: srest) =>
            let sSchema := s0 :: srest
            if cValues.length ≠ sSchema.length then
              processDeltas fmt dec pyd valueDicts descs sSchema deltas [] order
            else
              match decodeBaseRow fmt dec valueDicts descs sSchema cValues with
              | none => ([], order)
              | some (row, _) =>
                  let (outs, order2) := pydStep pyd row order
                  let (moreOuts, order3) :=
                    processDeltas fmt dec pyd valueDicts descs sSchema deltas row order2
                  (outs ++ moreOuts, order3)
          | _ => ([], order)
      | _ => ([], order)

/-- The data extracted from one raw page response before row decoding. -/
structure PageEnvelope where
  valueDicts : Json
  selects : List Json
  dataRows : List Json
deriving Repr

/-- The envelope traversal of `normalize_to_rows` for one page:
`results[0].result.data` (with Python `.get` defaults), then `dsr`,
`DS[0]`, its `ValueDicts` and `PH[0].DM0`, then the global
`descriptor.Select` list.  Every `continue`-guard of the source — falsy
`data`/`dsr`/`DS`/`PH`, a missing (`None`) or `[falsy]` `DM0`, an empty
descriptor list, an empty row list — and every raising access yields `none`,
which skips the page. -/
def extractPage (resp : Json) : Option PageEnvelope := do
  let results ← resp.pyGet "results" (.arr [.obj []])
  let first ← results.pyIndex0
  let result ← first.pyGet "result" (.obj [])
  let data ← result.pyGet "data" (.obj [])
  if !data.truthy then none
  else do
    let dsr ← data.pyGet "dsr" .null
    if !dsr.truthy then none
    else do
      let dsList ← dsr.pyGet "DS" (.arr [])
      if !dsList.truthy then none
      else do
        let ds ← dsList.pyIndex0
        let valueDicts ← ds.pyGet "ValueDicts" (.obj [])
        let phList ← ds.pyGet "PH" (.arr [])
        if !phList.truthy then none
        else do
          let ph ← phList.pyIndex0
          let dm0 ← ph.pyGet "DM0" .null
          match dm0 with
          | .null => none
          | _ =>
            let emptySingle :=
              match dm0 with
              | .arr [x] => !x.truthy
              | _ => false
            if emptySingle then none
            else do
              let descriptor ← data.pyGet "descriptor" (.obj [])
              let selectsJ ← descriptor.pyGet "Select" (.arr [])
              if !selectsJ.truthy then none
              else
                match selectsJ, dm0 with
                | .arr selects, .arr dataRows =>
                    if dataRows.isEmpty then none
                    else some ⟨valueDicts, selects, dataRows⟩
                | _, _ => none

/-- One iteration of the page loop in `normalize_to_rows`: skip the page when
its envelope is unusable, otherwise decode its rows and append them,
threading the order counter. -/
def normStep (fmt : Json → String → String) (dec : String → String)
    (pyd : RowMap → Option RowMap) (acc : List RowMap × Nat) (p : Json) :
    List RowMap × Nat :=
  match extractPage p with
  | none => acc
  | some env =>
      let (rows, order2) :=
        processPage fmt dec pyd env.valueDicts env.selects env.dataRows acc.2
      (acc.1 ++ rows, order2)

/-- `PrecatoriosCrawler.normalize_to_rows`: decode a list of page responses
into flat rows, threading a crawl-wide order counter; pages whose envelope
is unusable are skipped.  Returns the rows and the final counter value. -/
def normalizeToRows (fmt : Json → String → String) (dec : String → String)
    (pyd : RowMap → Option RowMap) (pages : List Json) (startOrder : Nat) :
    List RowMap × Nat :=
  pages.foldl (normStep fmt dec pyd) ([], startOrder)

/-! ## Pagination (`PrecatoriosCrawler.fetch_all_precatorios_data`) -/

/-- The restart-token extraction from a page response:
`page["results"][0]["result"]["data"]["dsr"]["DS"][0].get("RT")`; `none`
models the raised `KeyError`/`IndexError` (which breaks the loop), `some`
the found value (possibly the `None` default). -/
def extractRT (resp : Json) : Option Json := do
  let results ← resp.find? "results"
  let first ← results.pyIndex0
  let result ← first.find? "result"
  let data ← result.find? "data"
  let dsr ← data.find? "dsr"
  let dsList ← dsr.find? "DS"
  let ds ← dsList.pyIndex0
  ds.pyGet "RT" .null

/-- The guard at the top of the pagination loop:
`not page or "results" not in page or not page["results"]`. -/
def pageHasResults (resp : Json) : Bool :=
  resp.truthy && resp.hasKey "results" && ((resp.find? "results").getD .null).truthy

/-- The result of a full paginated fetch: the accumulated normalized rows,
the number of page requests issued (`page_num`), and the final order
counter. -/
structure FetchResult where
  rows : List RowMap
  pagesRequested : Nat
  lastOrder : Nat
deriving Repr

/-- The pagination loop body of `fetch_all_precatorios_data`, driven by the
list of responses the server will return to successive requests (when the
list is exhausted the next request fails, which the source catches and turns
into a break).  Each iteration increments the page counter, stops on an
empty/invalid response, normalizes the page (stopping when no rows come
back), accumulates rows, and extracts the restart tokens: missing or falsy
tokens end the crawl, tokens equal to the ones just used end it as a loop
guard, and fresh tokens drive the next request. -/
def fetchLoop (fmt : Json → String → String) (dec : String → String)
    (pyd : RowMap → Option RowMap) :
    List Json → Option Json → Nat → Nat → List RowMap → FetchResult
  | [], _, order, pageNum, acc => ⟨acc, pageNum + 1, order⟩
  | resp :: rest, curTokens, order, pageNum, acc =>
    let pageNum2 := pageNum + 1
    if !pageHasResults resp then ⟨acc, pageNum2, order⟩
    else
      let (pageRows, order2) := normalizeToRows fmt dec pyd [resp] order
      if pageRows.isEmpty then ⟨acc, pageNum2, order2⟩
      else
        let acc2 := acc ++ pageRows
        match extractRT resp with
        | none => ⟨acc2, pageNum2, order2⟩
        | some rt =>
            if !rt.truthy then ⟨acc2, pageNum2, order2⟩
            else if (some rt : Option Json) == curTokens then ⟨acc2, pageNum2, order2⟩
            else fetchLoop fmt dec pyd rest (some rt) order2 pageNum2 acc2

/-- `PrecatoriosCrawler.fetch_all_precatorios_data` against a served response
list: run the pagination loop from no tokens, order 0, page 0. -/
def fetchAll (fmt : Json → String → String) (dec : String → String)
    (pyd : RowMap → Option RowMap) (served : List Json) : FetchResult :=
  fetchLoop fmt dec pyd served none 0 0 []

/-! ## Payload construction (`PrecatoriosCrawler.get_precatorios_payload`) -/

/-- `PAGINATION_ORDER_BY_COLUMNS` from `src/crawler.py` (the adjusted value
matching the working cURL). -/
def PAGINATION_ORDER_BY_COLUMNS : List String := ["dfslcp_num_ordem"]

/-- One entry of the generated `OrderBy` clause: the sort direction code the
analytics wire format uses (`1` ascending, `2` descending) and the ordered
column. -/
structure OrderByItem where
  direction : Nat
  property : String
deriving Repr, DecidableEq

/-- The observable shape of a built query payload: the `OrderBy` clause, the
window size, the restart tokens attached to the window, the entity-filter
literal and the optional year-filter literal. -/
structure PayloadModel where
  orderBy : List OrderByItem
  windowCount : Nat
  restartTokens : Option Json
  entityFilterValue : String
  yearFilterValue : Option Int
deriving Repr

/-- `PrecatoriosCrawler.get_precatorios_payload`: resolve the entity name
(raising — `none` — when the resolved name is falsy), overwrite the
template's `OrderBy` with `Direction 1` per pagination column, set the window
count (the configured batch size when no positive count is given), attach or
remove the restart tokens, and install the entity and optional year
filters. -/
def getPrecatoriosPayload (entitySlugOrOfficialName : String)
    (count : Option Nat) (year : Option Int) (restartTokens : Option Json)
    (batchSize : Nat) : Option PayloadModel :=
  let apiEntityName := getApiEntityName entitySlugOrOfficialName
  if apiEntityName = "" then none
  else
    some
      { orderBy := PAGINATION_ORDER_BY_COLUMNS.map (fun col => ⟨1, col⟩)
        windowCount :=
          match count with
          | some c => if 0 < c then c else batchSize
          | none => batchSize
        restartTokens := restartTokens
        entityFilterValue := apiEntityName
        yearFilterValue := year }

/-! ## Top-level crawl (`PrecatoriosCrawler.crawl`) -/

/-- `PrecatoriosCrawler.crawl` for one entity: fetch all pages (which already
returns normalized record dicts), return early when nothing came back, then
pass the records through `normalize_to_rows` once more, return early when
that yields nothing, and otherwise hand the rows to `write_csv`.  The result
is the row list `write_csv` receives, or `none` when `crawl` returns before
writing. -/
def crawl (fmt : Json → String → String) (dec : String → String)
    (pyd : RowMap → Option RowMap) (served : List Json) :
    Option (List RowMap) :=
  let rawData := (fetchAll fmt dec pyd served).rows
  if rawData.isEmpty then none
  else
    let (rows, _) := normalizeToRows fmt dec pyd (rawData.map Json.obj) 0
    if rows.isEmpty then none
    else some rows

/-! ## Sample instantiations and synthetic pages

Concrete instantiations of the decode parameters and a synthetic page
response family, used by the concrete theorems below. -/

/-- A concrete `_format_value` instantiation: render the value. -/
def sampleFmt : Json → String → String := fun v _ => pyStr v

/-- A concrete `_decode_utf8` instantiation. -/
def sampleDec : String → String := id

/-- A concrete Pydantic step accepting every decoded row unchanged. -/
def samplePyd : RowMap → Option RowMap := fun m => some m

/-- Global descriptor list of the synthetic pages: two mapped columns. -/
def sampleDescs : List Json :=
  [ .obj [("Name", .str "dfslcp_SAPRE_LISTA_CRONO_PRECATORIO.dfslcp_dsc_proc_precatorio")],
    .obj [("Name", .str "dfslcp_SAPRE_LISTA_CRONO_PRECATORIO.dfslcp_dsc_natureza")] ]

/-- Row schema of the synthetic pages: a literal column and a column bound to
dictionary `D1`. -/
def sampleSchema : List Json := [ .obj [], .obj [("DN", .str "D1")] ]

/-- Value dictionaries of the synthetic pages. -/
def sampleValueDicts : Json := .obj [("D1", .arr [.str "X", .str "Y"])]

/-- One `DS[0]` object with the given restart tokens and row list. -/
def sampleDsFields (rt : Option Json) (dm0 : List Json) : List (String × Json) :=
  [("ValueDicts", sampleValueDicts), ("PH", .arr [ .obj [("DM0", .arr dm0)] ])] ++
    (match rt with | some t => [("RT", t)] | none => [])

/-- A full synthetic page response with the given restart tokens and rows. -/
def samplePage (rt : Option Json) (dm0 : List Json) : Json :=
  let dsr : Json := .obj [("DS", .arr [Json.obj (sampleDsFields rt dm0)])]
  let descriptor : Json := .obj [("Select", .arr sampleDescs)]
  let data : Json := .obj [("descriptor", descriptor), ("dsr", dsr)]
  .obj [("results", .arr [Json.obj [("result", Json.obj [("data", data)])]])]

/-- The base row of the synthetic pages. -/
def sampleBaseRow : Json := .obj [("S", .arr sampleSchema), ("C", .arr [.str "p1", .int 0])]

/-- A page carrying one base row and the given restart tokens. -/
def sampleGoodPage (i : Nat) : Json :=
  samplePage (some (.arr [.int (i : Int)])) [sampleBaseRow]

/-- Projection used to compare decoded rows observationally: the string
stored under a field. -/
def strAt (o : Option RowMap) (k : String) : Option String :=
  match o.bind (fun m => getField m k) with
  | some (.str s) => some s
  | _ => none

/-- The ordem projection of a decoded record. -/
def ordemField (m : RowMap) : Option Json := getField m "ordem"

/-- The expected ordem values of a run of records: `a+1, a+2, ..., a+len`. -/
def ordSeq (a len : Nat) : List (Option Json) :=
  (List.range' (a+1) len).map (fun n => some (.int (Int.ofNat n)))


/-- The delta-row walk skeleton shared by the claimed and the actual
resolution rules: walk columns in order over the row schema; skip columns
beyond the descriptor list or mapped to no canonical field; keep the
inherited value where the rulifier bit is set; where it is clear, fall back
to inheritance once the sparse list is exhausted (without advancing the
cursor), and otherwise hand the next sparse value to the resolver — `none`
aborts, `some none` keeps the current value, `some (some v)` stores `v`;
either way the sparse cursor advances. -/
def deltaWalk (resolve : RowMap → Json → FieldCfg → Json → Option (Option Json))
    (fmt : Json → String → String) (descs : List Json) (prev : RowMap)
    (r : Int) (cDelta : List Json) :
    List Json → Nat → Nat → RowMap → Option RowMap
  | [], _, _, row => some row
  | item :: rest, colIdx, cIdx, row =>
    if descs.length ≤ colIdx then
      deltaWalk resolve fmt descs prev r cDelta rest (colIdx + 1) cIdx row
    else
      match lookupColCfg descs colIdx with
      | none => none
      | some none => deltaWalk resolve fmt descs prev r cDelta rest (colIdx + 1) cIdx row
      | some (some cfg) =>
        if pyBit r colIdx then
          deltaWalk resolve fmt descs prev r cDelta rest (colIdx + 1) cIdx row
        else if cDelta.length ≤ cIdx then
          deltaWalk resolve fmt descs prev r cDelta rest (colIdx + 1) cIdx
            (setField row cfg.csvField
              ((getField prev cfg.csvField).getD (.str (fmt (defaultJson cfg) cfg.ty))))
        else
          match resolve prev item cfg (cDelta.getD cIdx .null) with
          | none => none
          | some none =>
              deltaWalk resolve fmt descs prev r cDelta rest (colIdx + 1) (cIdx + 1) row
          | some (some v) =>
              deltaWalk resolve fmt descs prev r cDelta rest (colIdx + 1) (cIdx + 1)
                (setField row cfg.csvField v)

/-- The actual delta resolution rule of `normalize_to_rows`, factored out of
the delta column loop: strings are stored literally (even for dictionary
columns); integers (and bools) resolve through the named dictionary when the
index is valid, and inherit otherwise; non-dictionary numerics are stored
literally through `str()`; every other type inherits. -/
def resolveDelta (fmt : Json → String → String) (valueDicts : Json) :
    RowMap → Json → FieldCfg → Json → Option (Option Json) :=
  fun prev item cfg raw =>
    let inheritRaw := (getField prev cfg.csvField).getD (defaultJson cfg)
    let viaDict := fun (n : Int) =>
      match item with
      | .obj sfs =>
        let dictName := ((sfs.find? (fun kv => kv.1 = "DN")).map (·.2)).getD .null
        if dictName.truthy then
          match valueDicts with
          | .obj _ =>
              match vdFind valueDicts dictName with
              | some (.arr lst) =>
                  if 0 ≤ n ∧ n.toNat < lst.length then
                    some (some (.str (fmt (lst.getD n.toNat .null) cfg.ty)))
                  else some (some inheritRaw)
              | some _ => none
              | none => some (some inheritRaw)
          | _ => none
        else some (some (.str (fmt (.str (pyStr raw)) cfg.ty)))
      | _ => none
    match raw with
    | .str s => some (some (.str (fmt (.str s) cfg.ty)))
    | .int n => viaDict n
    | .bool b => viaDict (if b then 1 else 0)
    | .num _ =>
        match item with
        | .obj sfs =>
          let dictName := ((sfs.find? (fun kv => kv.1 = "DN")).map (·.2)).getD .null
          if dictName.truthy then
            match valueDicts with
            | .obj _ => some (some inheritRaw)
            | _ => none
          else some (some (.str (fmt (.str (pyStr raw)) cfg.ty)))
        | _ => none
    | _ => some (some inheritRaw)

/-- The base-row resolution rule of `normalize_to_rows` step 4, as the claim
requires delta values to be resolved: an integer index into the named value
dictionary when the schema entry references one (leaving the current value
on a bad index or a bad dictionary), a literal otherwise. -/
def resolveBase (fmt : Json → String → String) (dec : String → String)
    (valueDicts : Json) :
    RowMap → Json → FieldCfg → Json → Option (Option Json) :=
  fun _prev item cfg raw =>
    match item with
    | .obj sfs =>
      let dictName := ((sfs.find? (fun kv => kv.1 = "DN")).map (·.2)).getD .null
      let assign := fun (v : Json) =>
        some (some (.str (fmt (match v with
          | .null => Json.null
          | w => .str (dec (pyStr w))) cfg.ty)))
      if dictName.truthy then
        match pyIntOfJson raw with
        | some idx =>
          match valueDicts with
          | .obj _ =>
              match vdFind valueDicts dictName with
              | some (.arr lst) =>
                  if 0 ≤ idx ∧ idx.toNat < lst.length then
                    assign (lst.getD idx.toNat .null)
                  else some none
              | _ => some none
          | _ => none
        | none => some none
      else assign raw
    | _ => none

/-- The fully decoded previous row used by the delta examples. -/
def samplePrevRow : RowMap := [("processo", .str "p1"), ("natureza", .str "X")]

/-- The number of columns of a (suffix of a) row schema that would consume a
sparse value: mapped to a canonical field, within the descriptor list, and
with a clear rulifier bit. -/
def countZeroBitMapped (descs : List Json) (r : Int) : List Json → Nat → Nat
  | [], _ => 0
  | _ :: rest, colIdx =>
    (if colIdx < descs.length then
      match lookupColCfg descs colIdx with
      | some (some _) => if pyBit r colIdx then 0 else 1
      | _ => 0
     else 0) + countZeroBitMapped descs r rest (colIdx + 1)

/-- The served streams of the synthetic crawls: pages `i, i+1, ..., i+k-1`,
each carrying a fresh continuation token. -/
def goodPages (i k : Nat) : List Json := (List.range' i k).map sampleGoodPage

/-- A decoded record carrying no `results` key (true of every dict Pydantic
dumps for the fixed-field `Precatorio` model). -/
def noResultsKey (row : RowMap) : Prop := getField row "results" = none

/-- A concrete always-accepting Pydantic step with the fixed `Precatorio`
shape. -/
def constPyd : RowMap → Option RowMap := fun _ => some [("processo", Json.str "x")]

/-! ## Dictionary-order lemmas for decoded rows -/

theorem getField_cons (kv : String × Json) (rest : RowMap) (k : String) :
    getField (kv :: rest) k = if kv.1 = k then some kv.2 else getField rest k := by
  by_cases h : kv.1 = k
  · simp [getField, List.find?, h]
  · simp [getField, List.find?, h]

theorem getField_setField_self (m : RowMap) (k : String) (v : Json) :
    getField (setField m k v) k = some v := by
  induction m with
  | nil => simp [setField, getField_cons, getField]
  | cons kv rest ih =>
    by_cases h : kv.1 = k
    · simp [setField, h, getField_cons]
    · simp [setField, h, getField_cons, ih]

theorem getField_setField_ne (m : RowMap) (k k2 : String) (v : Json) (h : k2 ≠ k) :
    getField (setField m k v) k2 = getField m k2 := by
  induction m with
  | nil => simp [setField, getField_cons, getField, Ne.symm h]
  | cons kv rest ih =>
    by_cases hk : kv.1 = k
    · subst hk
      simp [setField, getField_cons, Ne.symm h]
    · simp [setField, hk, getField_cons, ih]

theorem ordSeq_append (a n m : Nat) :
    ordSeq a n ++ ordSeq (a + n) m = ordSeq a (n + m) := by
  unfold ordSeq
  rw [← List.map_append]
  have h : List.range' (a+1) n ++ List.range' (a+n+1) m = List.range' (a+1) (n+m) := by
    have h2 := List.range'_append_1 (a+1) n m
    rw [Nat.add_right_comm a n 1, Nat.add_comm n m]
    exact h2
  rw [h]

theorem pydStep_ordem (pyd : RowMap → Option RowMap) (row : RowMap) (order : Nat) :
    (pydStep pyd row order).1.map ordemField = ordSeq order (pydStep pyd row order).1.length
    ∧ (pydStep pyd row order).2 = order + (pydStep pyd row order).1.length := by
  unfold pydStep
  cases h : pyd row with
  | none => simp [ordSeq]
  | some r => simp [ordemField, getField_setField_self, ordSeq, List.range']

theorem processDeltas_ordem (fmt : Json → String → String) (dec : String → String)
    (pyd : RowMap → Option RowMap) (vd : Json) (descs : List Json)
    (schema : List Json) :
    ∀ (rows : List Json) (last : RowMap) (order : Nat),
      ((processDeltas fmt dec pyd vd descs schema rows last order).1.map ordemField
        = ordSeq order (processDeltas fmt dec pyd vd descs schema rows last order).1.length)
      ∧ (processDeltas fmt dec pyd vd descs schema rows last order).2
        = order + (processDeltas fmt dec pyd vd descs schema rows last order).1.length := by
  intro rows
  induction rows with
  | nil => intro last order; simp [processDeltas, ordSeq]
  | cons rowJson rest ih =>
    intro last order
    rw [processDeltas]
    cases hc : rowJson.pyGet "C" (.arr []) with
    | none => simp [ordSeq]
    | some cJson =>
      cases cJson with
      | null => simp [ordSeq]
      | bool b => simp [ordSeq]
      | int n => simp [ordSeq]
      | num q => simp [ordSeq]
      | str s => simp [ordSeq]
      | obj fs => simp [ordSeq]
      | arr cDelta =>
        by_cases hl : last.isEmpty
        · simpa [hl] using ih last order
        · simp only [hl, if_false, Bool.false_eq_true]
          cases hr : rowJson.pyGet "R" .null with
          | none => simp [ordSeq]
          | some rJson =>
            have step : ∀ (row : RowMap),
                (((pydStep pyd row order).1
                    ++ (processDeltas fmt dec pyd vd descs schema rest row
                          (pydStep pyd row order).2).1).map ordemField
                  = ordSeq order ((pydStep pyd row order).1
                    ++ (processDeltas fmt dec pyd vd descs schema rest row
                          (pydStep pyd row order).2).1).length)
                ∧ (processDeltas fmt dec pyd vd descs schema rest row
                      (pydStep pyd row order).2).2
                  = order + ((pydStep pyd row order).1
                    ++ (processDeltas fmt dec pyd vd descs schema rest row
                          (pydStep pyd row order).2).1).length := by
              intro row
              have hp := pydStep_ordem pyd row order
              have hrec := ih row (pydStep pyd row order).2
              constructor
              · rw [List.map_append, hp.1, hrec.1, List.length_append]
                rw [hp.2] at hrec ⊢
                rw [ordSeq_append]
              · rw [hrec.2, hp.2, List.length_append]
                omega
            cases rJson with
            | null =>
                simpa using step last
            | int r =>
                cases hd : decodeDeltaRow fmt dec vd descs schema r cDelta last with
                | none => simp [hd, ordSeq]
                | some p =>
                    obtain ⟨row, logs⟩ := p
                    simpa [hd] using step row
            | bool b =>
                cases hd : decodeDeltaRow fmt dec vd descs schema
                    (if b then 1 else 0) cDelta last with
                | none => simp [hd, ordSeq]
                | some p =>
                    obtain ⟨row, logs⟩ := p
                    simpa [hd] using step row
            | num q => simp [ordSeq]
            | str s => simp [ordSeq]
            | arr l => simp [ordSeq]
            | obj fs => simp [ordSeq]

theorem pyd_then_deltas_ordem (fmt : Json → String → String) (dec : String → String)
    (pyd : RowMap → Option RowMap) (vd : Json) (descs : List Json)
    (schema : List Json) (rest : List Json) (row : RowMap) (order : Nat) :
    (((pydStep pyd row order).1
        ++ (processDeltas fmt dec pyd vd descs schema rest row
              (pydStep pyd row order).2).1).map ordemField
      = ordSeq order ((pydStep pyd row order).1
        ++ (processDeltas fmt dec pyd vd descs schema rest row
              (pydStep pyd row order).2).1).length)
    ∧ (processDeltas fmt dec pyd vd descs schema rest row
          (pydStep pyd row order).2).2
      = order + ((pydStep pyd row order).1
        ++ (processDeltas fmt dec pyd vd descs schema rest row
              (pydStep pyd row order).2).1).length := by
  have hp := pydStep_ordem pyd row order
  have hrec := processDeltas_ordem fmt dec pyd vd descs schema rest row (pydStep pyd row order).2
  constructor
  · rw [List.map_append, hp.1, hrec.1, List.length_append]
    rw [hp.2] at hrec ⊢
    rw [ordSeq_append]
  · rw [hrec.2, hp.2, List.length_append]
    omega

theorem processPage_ordem (fmt : Json → String → String) (dec : String → String)
    (pyd : RowMap → Option RowMap) (vd : Json) (descs : List Json)
    (dataRows : List Json) (order : Nat) :
    ((processPage fmt dec pyd vd descs dataRows order).1.map ordemField
      = ordSeq order (processPage fmt dec pyd vd descs dataRows order).1.length)
    ∧ (processPage fmt dec pyd vd descs dataRows order).2
      = order + (processPage fmt dec pyd vd descs dataRows order).1.length := by
  unfold processPage
  cases dataRows with
  | nil => simp [ordSeq]
  | cons baseRow deltas =>
    cases hc : baseRow.pyGet "C" (.arr []) with
    | none => simp [hc, ordSeq]
    | some cJson =>
      cases cJson with
      | null => simp [hc, ordSeq]
      | bool b => simp [hc, ordSeq]
      | int n => simp [hc, ordSeq]
      | num q => simp [hc, ordSeq]
      | str s => simp [hc, ordSeq]
      | obj fs => simp [hc, ordSeq]
      | arr cValues =>
        cases hs : baseRow.pyGet "S" .null with
        | none => simp [hc, hs, ordSeq]
        | some sJson =>
          cases sJson with
          | null => simp [hc, hs, ordSeq]
          | bool b => simp [hc, hs, ordSeq]
          | int n => simp [hc, hs, ordSeq]
          | num q => simp [hc, hs, ordSeq]
          | str s => simp [hc, hs, ordSeq]
          | obj fs => simp [hc, hs, ordSeq]
          | arr l =>
            cases l with
            | nil => simp [hc, hs, ordSeq]
            | cons s0 srest =>
              by_cases hlen : cValues.length = srest.length + 1
              · simp only [hc, hs, hlen, if_true]
                cases hb : decodeBaseRow fmt dec vd descs (s0 :: srest) cValues with
                | none => simp [hb, ordSeq]
                | some p =>
                    obtain ⟨row, logs⟩ := p
                    simpa [hb] using
                      pyd_then_deltas_ordem fmt dec pyd vd descs (s0 :: srest) deltas row order
              · simpa [hc, hs, hlen] using
                  processDeltas_ordem fmt dec pyd vd descs (s0 :: srest) deltas [] order

theorem normFold_ordem (fmt : Json → String → String) (dec : String → String)
    (pyd : RowMap → Option RowMap) :
    ∀ (pages : List Json) (acc : List RowMap) (order : Nat),
      ∃ extra,
        pages.foldl (normStep fmt dec pyd) (acc, order)
          = (acc ++ extra, order + extra.length) ∧
        extra.map ordemField = ordSeq order extra.length := by
  intro pages
  induction pages with
  | nil => intro acc order; exact ⟨[], by simp, by simp [ordSeq]⟩
  | cons p rest ih =>
    intro acc order
    rw [List.foldl_cons]
    cases he : extractPage p with
    | none =>
        have hstep : normStep fmt dec pyd (acc, order) p = (acc, order) := by
          unfold normStep; rw [he]
        rw [hstep]
        exact ih acc order
    | some env =>
        rcases hp2 : processPage fmt dec pyd env.valueDicts env.selects env.dataRows order
          with ⟨rows, o2⟩
        have hpp1 : rows.map ordemField = ordSeq order rows.length := by
          have h := (processPage_ordem fmt dec pyd env.valueDicts env.selects env.dataRows order).1
          rw [hp2] at h; exact h
        have hpp2 : o2 = order + rows.length := by
          have h := (processPage_ordem fmt dec pyd env.valueDicts env.selects env.dataRows order).2
          rw [hp2] at h; exact h
        have hstep : normStep fmt dec pyd (acc, order) p = (acc ++ rows, o2) := by
          unfold normStep; rw [he]; simp [hp2]
        rw [hstep, hpp2]
        obtain ⟨extra2, hfold, hmap⟩ := ih (acc ++ rows) (order + rows.length)
        refine ⟨rows ++ extra2, ?_, ?_⟩
        · rw [hfold]
          simp [List.append_assoc, List.length_append, Nat.add_assoc]
        · rw [List.map_append, hpp1, hmap, List.length_append, ordSeq_append]

theorem fetchLoop_ordem (fmt : Json → String → String) (dec : String → String)
    (pyd : RowMap → Option RowMap) :
    ∀ (served : List Json) (cur : Option Json) (order pageNum : Nat) (acc : List RowMap),
      ∃ extra,
        (fetchLoop fmt dec pyd served cur order pageNum acc).rows = acc ++ extra
        ∧ (fetchLoop fmt dec pyd served cur order pageNum acc).lastOrder
            = order + extra.length
        ∧ extra.map ordemField = ordSeq order extra.length := by
  intro served
  induction served with
  | nil =>
      intro cur order pageNum acc
      exact ⟨[], by simp [fetchLoop], by simp [fetchLoop], by simp [ordSeq]⟩
  | cons resp rest ih =>
    intro cur order pageNum acc
    rw [fetchLoop]
    by_cases hres : pageHasResults resp
    · simp only [hres, Bool.not_true, if_false, Bool.false_eq_true]
      rcases hn : normalizeToRows fmt dec pyd [resp] order with ⟨pageRows, order2⟩
      obtain ⟨extra0, hfold0, hmap0⟩ := normFold_ordem fmt dec pyd [resp] [] order
      have h0 : pageRows = extra0 ∧ order2 = order + extra0.length := by
        have : normalizeToRows fmt dec pyd [resp] order
            = (extra0, order + extra0.length) := by
          unfold normalizeToRows
          simpa using hfold0
        rw [hn] at this
        exact ⟨congrArg Prod.fst this, congrArg Prod.snd this⟩
      obtain ⟨hpr, ho2⟩ := h0
      subst hpr
      by_cases hemp : pageRows.isEmpty
      · have hlen : pageRows.length = 0 := by
          simpa [List.isEmpty_iff_length_eq_zero] using hemp
        refine ⟨[], by simp [hemp], ?_, by simp [ordSeq]⟩
        simp [hemp, ho2, hlen]
      · simp only [hemp, if_false, Bool.false_eq_true]
        have hmain : pageRows.map ordemField = ordSeq order pageRows.length := hmap0
        cases hrt : extractRT resp with
        | none =>
            exact ⟨pageRows, rfl, by rw [ho2], hmain⟩
        | some rt =>
            by_cases htr : rt.truthy
            · by_cases heq : (some rt : Option Json) == cur
              · simp only [htr, heq, Bool.not_true, if_false, if_true, Bool.false_eq_true]
                exact ⟨pageRows, rfl, by rw [ho2], hmain⟩
              · simp only [htr, heq, Bool.not_true, if_false, Bool.false_eq_true]
                obtain ⟨extra2, hre, hlo, hm2⟩ :=
                  ih (some rt) order2 (pageNum + 1) (acc ++ pageRows)
                refine ⟨pageRows ++ extra2, ?_, ?_, ?_⟩
                · rw [hre, List.append_assoc]
                · rw [hlo, ho2, List.length_append]
                  omega
                · rw [List.map_append, hmain, List.length_append]
                  rw [ho2] at hm2
                  rw [hm2, ordSeq_append]
            · simp only [htr, Bool.not_false, if_true]
              exact ⟨pageRows, rfl, by rw [ho2], hmain⟩
    · simp only [hres, Bool.not_false, if_true]
      exact ⟨[], by simp, by simp, by simp [ordSeq]⟩

/-! ## C2 — crawl-wide ordem invariant -/

/-- Claim C2: across a whole crawl, the ordem values of the produced records,
in output order, are exactly 1..N for the N records produced: the decoder
assigns them from the single crawl-wide counter threaded through
normalization, never from the wire. -/
theorem claim_c2_monotonic_ordem (fmt : Json → String → String)
    (dec : String → String) (pyd : RowMap → Option RowMap) (served : List Json) :
    (fetchAll fmt dec pyd served).rows.map ordemField
      = (List.range' 1 (fetchAll fmt dec pyd served).rows.length).map
          (fun n => some (.int (Int.ofNat n)))
    ∧ (fetchAll fmt dec pyd served).lastOrder
      = (fetchAll fmt dec pyd served).rows.length := by
  obtain ⟨extra, hrows, hord, hmap⟩ := fetchLoop_ordem fmt dec pyd served none 0 0 []
  unfold fetchAll
  have hx : (fetchLoop fmt dec pyd served none 0 0 []).rows = extra := by simpa using hrows
  rw [hx]
  refine ⟨?_, ?_⟩
  · rw [hmap]; rfl
  · rw [hord]; omega

/-! ## C4 — wire-name base resolution -/

/-- Claim C4, settled against the code: resolving the aggregated descriptor
name `Sum(dfslcp_SAPRE_LISTA_CRONO_PRECATORIO.dfslcp_num_ano_orcamento)`
does not strip the wrapper.  The doubled backslashes in the raw-string
pattern of `_get_base_field_name` make the aggregation regex require literal
backslash characters, so it never matches; the fallback takes the substring
after the last dot, leaving the trailing parenthesis, and the resulting name
matches no configured `api_name`, contrary to the function's own doc
comment, which promises `dfslcp_num_ano_orcamento`. -/
theorem claim_c4_wire_name_bug :
    getBaseFieldName "Sum(dfslcp_SAPRE_LISTA_CRONO_PRECATORIO.dfslcp_num_ano_orcamento)"
        = "dfslcp_num_ano_orcamento)" ∧
    aggWrapperMatch "Sum(dfslcp_SAPRE_LISTA_CRONO_PRECATORIO.dfslcp_num_ano_orcamento)"
        = none ∧
    apiMapLookup "dfslcp_num_ano_orcamento)" = none ∧
    "dfslcp_num_ano_orcamento)" ≠ "dfslcp_num_ano_orcamento" :=
  ⟨rfl, rfl, rfl, by decide⟩

/-! ## C6 — sort direction convention -/

/-- Claim C6 counterexample: a request built with a continuation token
attached still carries sort direction `1` (ascending) in its `OrderBy`
clause, not the descending `2` the claim requires for continuation
requests. -/
theorem claim_c6_counterexample :
    (getPrecatoriosPayload "municipio-de-fortaleza" none none
        (some (.arr [.str "tok"])) 500).map (·.orderBy)
      = some [⟨1, "dfslcp_num_ordem"⟩] ∧ (1 : Nat) ≠ 2 :=
  ⟨rfl, by decide⟩

/-- Claim C6 as amended: every built request, with or without a continuation
token, orders by the pagination columns with direction `1` (ascending); the
direction is never flipped. -/
theorem claim_c6_direction (entity : String) (count : Option Nat)
    (year : Option Int) (tokens : Option Json) (batchSize : Nat)
    (p : PayloadModel)
    (hp : getPrecatoriosPayload entity count year tokens batchSize = some p) :
    ∀ ob ∈ p.orderBy, ob.direction = 1 := by
  intro ob hob
  unfold getPrecatoriosPayload at hp
  by_cases he : getApiEntityName entity = ""
  · simp [he] at hp
  · simp [he] at hp
    subst hp
    simp [PAGINATION_ORDER_BY_COLUMNS] at hob
    subst hob
    rfl

/-- Witness for the amended C6 at a concrete request. -/
theorem claim_c6_direction_witness :
    (⟨1, "dfslcp_num_ordem"⟩ : OrderByItem).direction = 1 :=
  claim_c6_direction "municipio-de-fortaleza" none none
    (some (.arr [.str "tok"])) 500
    { orderBy := [⟨1, "dfslcp_num_ordem"⟩], windowCount := 500,
      restartTokens := some (.arr [.str "tok"]),
      entityFilterValue := "MUNICÍPIO DE FORTALEZA", yearFilterValue := none }
    rfl ⟨1, "dfslcp_num_ordem"⟩ (by decide)

/-! ## C7 — decimal coercion -/

/-- Claim C7 counterexample: the decimal coercer maps the American-format
string `1,234.56` to `0`, not to `1234.56`: with a single comma and a single
dot where the dot comes last, neither replacement branch fires, the comma
stays in place, and `float()` raises, which the source turns into the `"0"`
default. -/
theorem claim_c7_counterexample :
    coerceDecimal "1,234.56" = 0 ∧ (0 : Rat) ≠ mkRat 123456 100 :=
  ⟨by decide, by decide⟩

/-- Claim C7 as amended: the separator heuristic turns `1.234,56` into
`1234.56` (also under a currency prefix), the empty string coerces to `0`,
and the single-comma single-dot American form `1,234.56` is not recognised
and coerces to `0`; no input raises. -/
theorem claim_c7_decimal :
    coerceDecimal "1.234,56" = mkRat 123456 100 ∧
    coerceDecimal "R$ 1.234,56" = mkRat 123456 100 ∧
    coerceDecimal "" = 0 ∧
    coerceDecimal "1,234.56" = 0 :=
  ⟨by decide, by decide, by decide, by decide⟩

/-! ## C8 — date coercion -/

/-- Claim C8, settled against the code: the textual tuple form
`datetime(2022,1,15,0,0,0)` does not coerce to a date — the doubled
backslashes in the raw-string pattern of the date branch make the regex
require literal backslashes, so the match fails, the float fallback fails
too, and the coercer returns the empty value (a null `data_cadastro`),
contrary to the comment announcing the `datetime(YYYY,MM,DD...)` format.
Epoch milliseconds and unparseable strings behave as documented. -/
theorem claim_c8_date_bug :
    formatValueDate "datetime(2022,1,15,0,0,0)" = .empty ∧
    searchDatetimeGroup "datetime(2022,1,15,0,0,0)".toList = none ∧
    formatValueDate "1700000000000" = .epochMs (mkRat 1700000000000 1) ∧
    formatValueDate "abc" = .empty :=
  ⟨by decide, by decide, by decide, by decide⟩

/-! ## C9 — unknown-entity handling -/

/-- Claim C9 counterexample: the slug `foo-bar` is not in the static table,
yet entity resolution does not fail — it synthesizes `FOO BAR` by reversing
the normalization, and the payload builder issues a query whose entity
filter carries that guessed name. -/
theorem claim_c9_counterexample :
    entityMappingLookup (slugify "foo-bar") = none ∧
    getApiEntityName "foo-bar" = "FOO BAR" ∧
    unslugify (slugify "foo-bar") = "FOO BAR" ∧
    (getPrecatoriosPayload "foo-bar" none none none 500).map (·.entityFilterValue)
      = some "FOO BAR" :=
  ⟨rfl, rfl, rfl, rfl⟩

/-- Claim C9 as amended: for every slug whose normalization is absent from
the static table, `get_api_entity_name` synthesizes a best-effort official
name by reversing the normalization, and (whenever that synthesized name is
non-empty) the payload builder proceeds to build the query under the guessed
name instead of failing. -/
theorem claim_c9_unknown_entity (slug : String) (count : Option Nat)
    (year : Option Int) (tokens : Option Json) (batchSize : Nat)
    (h : entityMappingLookup (slugify slug) = none) :
    getApiEntityName slug = unslugify (slugify slug) ∧
    (unslugify (slugify slug) ≠ "" →
      (getPrecatoriosPayload slug count year tokens batchSize).map (·.entityFilterValue)
        = some (unslugify (slugify slug))) := by
  have hname : getApiEntityName slug = unslugify (slugify slug) := by
    unfold getApiEntityName
    rw [h]
  refine ⟨hname, fun hne => ?_⟩
  unfold getPrecatoriosPayload
  rw [hname]
  simp [hne]

/-- Witness for the amended C9 at the concrete unknown slug `foo-bar`. -/
theorem claim_c9_unknown_entity_witness :
    getApiEntityName "foo-bar" = unslugify (slugify "foo-bar") ∧
    (unslugify (slugify "foo-bar") ≠ "" →
      (getPrecatoriosPayload "foo-bar" none none none 500).map (·.entityFilterValue)
        = some (unslugify (slugify "foo-bar"))) :=
  claim_c9_unknown_entity "foo-bar" none none none 500 rfl

/-! ## C5 — pagination termination -/

theorem json_tok_beq (i j : Int) :
    ((some (Json.arr [Json.int i]) : Option Json) == some (Json.arr [Json.int j]))
      = (i == j) := by
  show (Json.beq _ _) = _
  simp [Json.beq, Json.beqList]

theorem fetchLoop_goodPages_requests :
    ∀ (k i : Nat) (cur : Option Json) (order pageNum : Nat) (acc : List RowMap),
      (cur = none ∨ ∃ m, m < i ∧ cur = some (Json.arr [Json.int (Int.ofNat m)])) →
      (fetchLoop sampleFmt sampleDec samplePyd (goodPages i k) cur order pageNum
          acc).pagesRequested = pageNum + k + 1 := by
  intro k
  induction k with
  | zero =>
      intro i cur order pageNum acc _
      rfl
  | succ k ih =>
    intro i cur order pageNum acc hcur
    have hsplit : goodPages i (k+1) = sampleGoodPage i :: goodPages (i+1) k := by
      simp [goodPages, List.range'_succ]
    rw [hsplit, fetchLoop]
    have h1 : pageHasResults (sampleGoodPage i) = true := rfl
    rw [h1]
    obtain ⟨pageRows, order2, hn⟩ :
        ∃ a b, normalizeToRows sampleFmt sampleDec samplePyd [sampleGoodPage i] order
          = (a, b) := ⟨_, _, rfl⟩
    have hne : pageRows.isEmpty = false := by
      have h : (normalizeToRows sampleFmt sampleDec samplePyd [sampleGoodPage i]
          order).1.isEmpty = false := rfl
      rw [hn] at h
      exact h
    have hrt : extractRT (sampleGoodPage i) = some (.arr [.int (Int.ofNat i)]) := rfl
    have heqf : ((some (Json.arr [Json.int (Int.ofNat i)]) : Option Json) == cur) = false := by
      rcases hcur with hc | ⟨m, hm, hc⟩
      · subst hc; rfl
      · subst hc
        rw [json_tok_beq]
        have : Int.ofNat i ≠ Int.ofNat m := by
          intro hh
          exact absurd (Int.ofNat.inj hh) (by omega)
        simpa using this
    simp only [hn, hne, hrt, heqf, Bool.not_true, Bool.not_false, if_false, if_true,
      Bool.false_eq_true, Json.truthy, List.isEmpty_cons]
    have hrec := ih (i+1) (some (Json.arr [Json.int (Int.ofNat i)])) order2 (pageNum + 1)
        (acc ++ pageRows) (Or.inr ⟨i, by omega, rfl⟩)
    rw [hrec]
    omega

/-- Claim C5 counterexample: a synthetic crawl whose server keeps producing
pages with fresh continuation tokens issues 102 page requests — there is no
hard 100-page ceiling in `fetch_all_precatorios_data`. -/
theorem claim_c5_counterexample :
    (fetchAll sampleFmt sampleDec samplePyd (goodPages 0 101)).pagesRequested = 102
    ∧ 100 < (fetchAll sampleFmt sampleDec samplePyd (goodPages 0 101)).pagesRequested := by
  have h := fetchLoop_goodPages_requests 101 0 none 0 0 [] (Or.inl rfl)
  unfold fetchAll
  rw [h]
  omega

/-- Claim C5 as amended: the pagination loop terminates with normal
completion when a decoded page repeats the continuation token it was called
with (loop guard — the remaining server pages are never requested), or when
the page carries no truthy continuation token; in all other cases the loop
keeps requesting pages as long as the server serves them — the number of
page requests is bounded only by the served stream (one failing request past
its end), with no page-count ceiling. -/
theorem claim_c5_termination (fmt : Json → String → String) (dec : String → String)
    (pyd : RowMap → Option RowMap) :
    (∀ (resp : Json) (rest : List Json) (cur : Option Json) (order pageNum : Nat)
        (acc : List RowMap) (rt : Json),
      pageHasResults resp = true →
      (normalizeToRows fmt dec pyd [resp] order).1.isEmpty = false →
      extractRT resp = some rt → rt.truthy = true → ((some rt : Option Json) == cur) = true →
      fetchLoop fmt dec pyd (resp :: rest) cur order pageNum acc
        = ⟨acc ++ (normalizeToRows fmt dec pyd [resp] order).1, pageNum + 1,
           (normalizeToRows fmt dec pyd [resp] order).2⟩)
    ∧ (∀ (resp : Json) (rest : List Json) (cur : Option Json) (order pageNum : Nat)
        (acc : List RowMap) (rt : Json),
      pageHasResults resp = true →
      (normalizeToRows fmt dec pyd [resp] order).1.isEmpty = false →
      extractRT resp = some rt → rt.truthy = false →
      fetchLoop fmt dec pyd (resp :: rest) cur order pageNum acc
        = ⟨acc ++ (normalizeToRows fmt dec pyd [resp] order).1, pageNum + 1,
           (normalizeToRows fmt dec pyd [resp] order).2⟩)
    ∧ (∀ (served : List Json) (cur : Option Json) (order pageNum : Nat)
        (acc : List RowMap),
      (fetchLoop fmt dec pyd served cur order pageNum acc).pagesRequested
        ≤ pageNum + served.length + 1) := by
  refine ⟨?_, ?_, ?_⟩
  · intro resp rest cur order pageNum acc rt hres hne hrt htr heq
    rw [fetchLoop]
    obtain ⟨pageRows, order2, hn⟩ :
        ∃ a b, normalizeToRows fmt dec pyd [resp] order = (a, b) := ⟨_, _, rfl⟩
    rw [hn] at hne ⊢
    simp only [hres, hn, hne, hrt, htr, heq, Bool.not_true, if_false, if_true,
      Bool.false_eq_true]
  · intro resp rest cur order pageNum acc rt hres hne hrt htr
    rw [fetchLoop]
    obtain ⟨pageRows, order2, hn⟩ :
        ∃ a b, normalizeToRows fmt dec pyd [resp] order = (a, b) := ⟨_, _, rfl⟩
    rw [hn] at hne ⊢
    simp only [hres, hn, hne, hrt, htr, Bool.not_true, Bool.not_false, if_false, if_true,
      Bool.false_eq_true]
  · intro served
    induction served with
    | nil => intro cur order pageNum acc; simp [fetchLoop]
    | cons resp rest ih =>
      intro cur order pageNum acc
      rw [fetchLoop]
      by_cases hres : pageHasResults resp
      · simp only [hres, Bool.not_true, if_false, Bool.false_eq_true]
        obtain ⟨pageRows, order2, hn⟩ :
            ∃ a b, normalizeToRows fmt dec pyd [resp] order = (a, b) := ⟨_, _, rfl⟩
        rw [hn]
        by_cases hemp : pageRows.isEmpty
        · simp only [hemp, if_true, List.length_cons]
          omega
        · simp only [hemp, if_false, Bool.false_eq_true]
          cases hrt : extractRT resp with
          | none =>
              simp only [hrt, List.length_cons]
              omega
          | some rt =>
              by_cases htr : rt.truthy
              · by_cases heq : ((some rt : Option Json) == cur)
                · simp only [htr, heq, Bool.not_true, if_false, if_true,
                    Bool.false_eq_true, List.length_cons]
                  omega
                · simp only [htr, heq, Bool.not_true, if_false, Bool.false_eq_true]
                  have h := ih (some rt) order2 (pageNum + 1) (acc ++ pageRows)
                  simp only [List.length_cons]
                  omega
              · simp only [htr, Bool.not_false, if_true, List.length_cons]
                omega
      · simp only [hres, Bool.not_false, if_true, List.length_cons]
        omega

/-- Witness for the amended C5: the loop-guard stop (a page echoing the token
it was called with, with a further page the crawl never requests), the
falsy-token stop, and the request bound, each at concrete inputs. -/
theorem claim_c5_termination_witness :
    (fetchLoop sampleFmt sampleDec samplePyd
        [samplePage (some (.arr [.str "t1"])) [sampleBaseRow], sampleGoodPage 7]
        (some (.arr [.str "t1"])) 0 1 []
      = ⟨(normalizeToRows sampleFmt sampleDec samplePyd
            [samplePage (some (.arr [.str "t1"])) [sampleBaseRow]] 0).1, 2,
          (normalizeToRows sampleFmt sampleDec samplePyd
            [samplePage (some (.arr [.str "t1"])) [sampleBaseRow]] 0).2⟩)
    ∧ (fetchLoop sampleFmt sampleDec samplePyd
        [samplePage (some (.arr [])) [sampleBaseRow], sampleGoodPage 7]
        none 0 1 []
      = ⟨(normalizeToRows sampleFmt sampleDec samplePyd
            [samplePage (some (.arr [])) [sampleBaseRow]] 0).1, 2,
          (normalizeToRows sampleFmt sampleDec samplePyd
            [samplePage (some (.arr [])) [sampleBaseRow]] 0).2⟩)
    ∧ (fetchLoop sampleFmt sampleDec samplePyd [sampleGoodPage 3] none 0 0
        []).pagesRequested ≤ 0 + 1 + 1 := by
  refine ⟨?_, ?_, ?_⟩
  · exact (claim_c5_termination sampleFmt sampleDec samplePyd).1
      (samplePage (some (.arr [.str "t1"])) [sampleBaseRow]) [sampleGoodPage 7]
      (some (.arr [.str "t1"])) 0 1 [] (.arr [.str "t1"]) rfl rfl rfl rfl rfl
  · exact (claim_c5_termination sampleFmt sampleDec samplePyd).2.1
      (samplePage (some (.arr [])) [sampleBaseRow]) [sampleGoodPage 7]
      none 0 1 [] (.arr []) rfl rfl rfl rfl
  · exact (claim_c5_termination sampleFmt sampleDec samplePyd).2.2
      [sampleGoodPage 3] none 0 0 []

/-! ## C10 — crawl double-normalization -/

theorem pydStep_noResults (pyd : RowMap → Option RowMap)
    (hpyd : ∀ m r, pyd m = some r → noResultsKey r)
    (row : RowMap) (order : Nat) :
    ∀ x ∈ (pydStep pyd row order).1, noResultsKey x := by
  intro x hx
  unfold pydStep at hx
  cases h : pyd row with
  | none => rw [h] at hx; simp at hx
  | some r =>
      rw [h] at hx
      simp at hx
      subst hx
      unfold noResultsKey
      rw [getField_setField_ne _ _ _ _ (by decide)]
      exact hpyd row r h

theorem processDeltas_noResults (fmt : Json → String → String) (dec : String → String)
    (pyd : RowMap → Option RowMap) (vd : Json) (descs : List Json) (schema : List Json)
    (hpyd : ∀ m r, pyd m = some r → noResultsKey r) :
    ∀ (rows : List Json) (last : RowMap) (order : Nat),
      ∀ x ∈ (processDeltas fmt dec pyd vd descs schema rows last order).1, noResultsKey x := by
  intro rows
  induction rows with
  | nil => intro last order x hx; simp [processDeltas] at hx
  | cons rowJson rest ih =>
    intro last order x hx
    rw [processDeltas] at hx
    cases hc : rowJson.pyGet "C" (.arr []) with
    | none => rw [hc] at hx; simp at hx
    | some cJson =>
      rw [hc] at hx
      cases cJson with
      | arr cDelta =>
        by_cases hl : last.isEmpty
        · simp only [hl, if_true] at hx
          exact ih last order x hx
        · simp only [hl, if_false, Bool.false_eq_true] at hx
          cases hr : rowJson.pyGet "R" .null with
          | none => rw [hr] at hx; simp at hx
          | some rJson =>
            rw [hr] at hx
            have step : ∀ (row : RowMap),
                x ∈ (pydStep pyd row order).1
                  ++ (processDeltas fmt dec pyd vd descs schema rest row
                        (pydStep pyd row order).2).1 → noResultsKey x := by
              intro row hmem
              rcases List.mem_append.mp hmem with hm | hm
              · exact pydStep_noResults pyd hpyd row order x hm
              · exact ih row (pydStep pyd row order).2 x hm
            cases rJson with
            | null => exact step last hx
            | int r =>
                cases hd : decodeDeltaRow fmt dec vd descs schema r cDelta last with
                | none => simp [hd] at hx
                | some p =>
                    obtain ⟨row, logs⟩ := p
                    simp only [hd] at hx
                    exact step row hx
            | bool b =>
                cases hd : decodeDeltaRow fmt dec vd descs schema
                    (if b then 1 else 0) cDelta last with
                | none => simp [hd] at hx
                | some p =>
                    obtain ⟨row, logs⟩ := p
                    simp only [hd] at hx
                    exact step row hx
            | num q => simp at hx
            | str s => simp at hx
            | arr l => simp at hx
            | obj fs => simp at hx
      | null => simp at hx
      | bool b => simp at hx
      | int n => simp at hx
      | num q => simp at hx
      | str s => simp at hx
      | obj fs => simp at hx

theorem processPage_noResults (fmt : Json → String → String) (dec : String → String)
    (pyd : RowMap → Option RowMap) (vd : Json) (descs : List Json)
    (hpyd : ∀ m r, pyd m = some r → noResultsKey r)
    (dataRows : List Json) (order : Nat) :
    ∀ x ∈ (processPage fmt dec pyd vd descs dataRows order).1, noResultsKey x := by
  intro x hx
  unfold processPage at hx
  cases dataRows with
  | nil => simp at hx
  | cons baseRow deltas =>
    cases hc : baseRow.pyGet "C" (.arr []) with
    | none => simp [hc] at hx
    | some cJson =>
      cases cJson with
      | arr cValues =>
        cases hs : baseRow.pyGet "S" .null with
        | none => simp [hc, hs] at hx
        | some sJson =>
          cases sJson with
          | arr l =>
            cases l with
            | nil => simp [hc, hs] at hx
            | cons s0 srest =>
              simp only [hc, hs] at hx
              by_cases hlen : cValues.length ≠ (s0 :: srest).length
              · rw [if_pos hlen] at hx
                exact processDeltas_noResults fmt dec pyd vd descs (s0 :: srest) hpyd
                    deltas [] order x hx
              · rw [if_neg hlen] at hx
                cases hb : decodeBaseRow fmt dec vd descs (s0 :: srest) cValues with
                | none => simp [hb] at hx
                | some p =>
                    obtain ⟨row, logs⟩ := p
                    simp only [hb] at hx
                    rcases List.mem_append.mp hx with hm | hm
                    · exact pydStep_noResults pyd hpyd row order x hm
                    · exact processDeltas_noResults fmt dec pyd vd descs (s0 :: srest) hpyd
                        deltas row (pydStep pyd row order).2 x hm
          | null => simp [hc, hs] at hx
          | bool b => simp [hc, hs] at hx
          | int n => simp [hc, hs] at hx
          | num q => simp [hc, hs] at hx
          | str s => simp [hc, hs] at hx
          | obj fs => simp [hc, hs] at hx
      | null => simp [hc] at hx
      | bool b => simp [hc] at hx
      | int n => simp [hc] at hx
      | num q => simp [hc] at hx
      | str s => simp [hc] at hx
      | obj fs => simp [hc] at hx

theorem normFold_noResults (fmt : Json → String → String) (dec : String → String)
    (pyd : RowMap → Option RowMap)
    (hpyd : ∀ m r, pyd m = some r → noResultsKey r) :
    ∀ (pages : List Json) (acc : List RowMap) (order : Nat),
      ∀ x ∈ (pages.foldl (normStep fmt dec pyd) (acc, order)).1,
        x ∈ acc ∨ noResultsKey x := by
  intro pages
  induction pages with
  | nil => intro acc order x hx; exact Or.inl (by simpa using hx)
  | cons p rest ih =>
    intro acc order x hx
    rw [List.foldl_cons] at hx
    cases he : extractPage p with
    | none =>
        have hstep : normStep fmt dec pyd (acc, order) p = (acc, order) := by
          unfold normStep; rw [he]
        rw [hstep] at hx
        exact ih acc order x hx
    | some env =>
        rcases hp2 : processPage fmt dec pyd env.valueDicts env.selects env.dataRows order
          with ⟨rows, o2⟩
        have hstep : normStep fmt dec pyd (acc, order) p = (acc ++ rows, o2) := by
          unfold normStep; rw [he]; simp [hp2]
        rw [hstep] at hx
        rcases ih (acc ++ rows) o2 x hx with hm | hm
        · rcases List.mem_append.mp hm with hm2 | hm2
          · exact Or.inl hm2
          · refine Or.inr ?_
            have h := processPage_noResults fmt dec pyd env.valueDicts env.selects hpyd
                env.dataRows order x
            rw [hp2] at h
            exact h hm2
        · exact Or.inr hm

theorem fetchLoop_noResults (fmt : Json → String → String) (dec : String → String)
    (pyd : RowMap → Option RowMap)
    (hpyd : ∀ m r, pyd m = some r → noResultsKey r) :
    ∀ (served : List Json) (cur : Option Json) (order pageNum : Nat) (acc : List RowMap),
      ∀ x ∈ (fetchLoop fmt dec pyd served cur order pageNum acc).rows,
        x ∈ acc ∨ noResultsKey x := by
  intro served
  induction served with
  | nil =>
      intro cur order pageNum acc x hx
      exact Or.inl (by simpa [fetchLoop] using hx)
  | cons resp rest ih =>
    intro cur order pageNum acc x hx
    rw [fetchLoop] at hx
    by_cases hres : pageHasResults resp
    · simp only [hres, Bool.not_true, if_false, Bool.false_eq_true] at hx
      rcases hn : normalizeToRows fmt dec pyd [resp] order with ⟨pageRows, order2⟩
      rw [hn] at hx
      have hpr : ∀ y ∈ pageRows, noResultsKey y := by
        intro y hy
        have h := normFold_noResults fmt dec pyd hpyd [resp] [] order y
        unfold normalizeToRows at hn
        rw [hn] at h
        rcases h hy with hm | hm
        · simp at hm
        · exact hm
      by_cases hemp : pageRows.isEmpty
      · simp only [hemp, if_true] at hx
        exact Or.inl hx
      · simp only [hemp, if_false, Bool.false_eq_true] at hx
        have hacc2 : ∀ y ∈ acc ++ pageRows, y ∈ acc ∨ noResultsKey y := by
          intro y hy
          rcases List.mem_append.mp hy with hm | hm
          · exact Or.inl hm
          · exact Or.inr (hpr y hm)
        cases hrt : extractRT resp with
        | none =>
            rw [hrt] at hx
            exact hacc2 x hx
        | some rt =>
            rw [hrt] at hx
            by_cases htr : rt.truthy
            · by_cases heq : (some rt : Option Json) == cur
              · simp only [htr, heq, Bool.not_true, if_false, if_true,
                  Bool.false_eq_true] at hx
                exact hacc2 x hx
              · simp only [htr, heq, Bool.not_true, if_false, Bool.false_eq_true] at hx
                rcases ih (some rt) order2 (pageNum + 1) (acc ++ pageRows) x hx with hm | hm
                · exact hacc2 x hm
                · exact Or.inr hm
            · simp only [htr, Bool.not_false, if_true] at hx
              exact hacc2 x hx
    · simp only [hres, Bool.not_false, if_true] at hx
      exact Or.inl hx

theorem extractPage_of_noResults (rec : RowMap) (h : noResultsKey rec) :
    extractPage (Json.obj rec) = none := by
  have hf0 : rec.find? (fun kv => kv.1 = "results") = none := by
    unfold noResultsKey getField at h
    exact Option.map_eq_none.mp h
  have hf : (Json.obj rec).pyGet "results" (.arr [.obj []]) = some (.arr [.obj []]) := by
    simp [Json.pyGet, hf0]
  unfold extractPage
  rw [hf]
  rfl

theorem normFold_allSkipped (fmt : Json → String → String) (dec : String → String)
    (pyd : RowMap → Option RowMap) :
    ∀ (pages : List Json) (acc : List RowMap) (order : Nat),
      (∀ p ∈ pages, extractPage p = none) →
      pages.foldl (normStep fmt dec pyd) (acc, order) = (acc, order) := by
  intro pages
  induction pages with
  | nil => intro acc order _; rfl
  | cons p rest ih =>
    intro acc order hall
    rw [List.foldl_cons]
    have hstep : normStep fmt dec pyd (acc, order) p = (acc, order) := by
      unfold normStep
      rw [hall p (by simp)]
    rw [hstep]
    exact ih acc order (fun q hq => hall q (by simp [hq]))

/-- Claim C10: whenever the Pydantic dump never yields a record with a
`results` key (which is true of the fixed-field `Precatorio` model), the
top-level `crawl` writes no CSV and yields no records: the records returned
by `fetch_all_precatorios_data` are already normalized dicts, the second
`normalize_to_rows` pass finds no `results` envelope in them and returns the
empty list, and `crawl` returns before `write_csv` is invoked. -/
theorem claim_c10_crawl_double_normalize (fmt : Json → String → String)
    (dec : String → String) (pyd : RowMap → Option RowMap) (served : List Json)
    (hpyd : ∀ m r, pyd m = some r → noResultsKey r) :
    crawl fmt dec pyd served = none := by
  unfold crawl
  by_cases hraw : (fetchAll fmt dec pyd served).rows.isEmpty
  · simp [hraw]
  · simp only [hraw, if_false, Bool.false_eq_true]
    have hall : ∀ p ∈ (fetchAll fmt dec pyd served).rows.map Json.obj,
        extractPage p = none := by
      intro p hp
      rcases List.mem_map.mp hp with ⟨rec, hrec, hpe⟩
      have hshape := fetchLoop_noResults fmt dec pyd hpyd served none 0 0 [] rec hrec
      rcases hshape with hm | hm
      · simp at hm
      · rw [← hpe]
        exact extractPage_of_noResults rec hm
    have hz : normalizeToRows fmt dec pyd
        ((fetchAll fmt dec pyd served).rows.map Json.obj) 0 = ([], 0) := by
      unfold normalizeToRows
      exact normFold_allSkipped fmt dec pyd _ [] 0 hall
    rw [hz]
    simp

/-- Witness for C10: a concrete served page that yields one record, with a
concrete accepting Pydantic step; the crawl still hands nothing to
`write_csv`. -/
theorem claim_c10_witness :
    (fetchAll sampleFmt sampleDec constPyd [samplePage none [sampleBaseRow]]).rows.length = 1
    ∧ crawl sampleFmt sampleDec constPyd [samplePage none [sampleBaseRow]] = none := by
  constructor
  · rfl
  · exact claim_c10_crawl_double_normalize sampleFmt sampleDec constPyd
      [samplePage none [sampleBaseRow]]
      (fun m r h => by
        injection h with h2
        rw [← h2]
        rfl)

/-! ## C1: delta-row resolution -/

/-- Dropping the log component of a column-loop result commutes with
relabelling the logs. -/

theorem map_fst_relabel (o : Option (RowMap × List LogEvent))
    (g : List LogEvent → List LogEvent) :
    (o.map (fun p => (p.1, g p.2))).map (fun p => p.1) = o.map (fun p => p.1) := by
  cases o <;> rfl

/-- The delta column loop is the delta walk under the code's actual
resolution rule `resolveDelta`. -/
theorem decodeDeltaCols_eq_walk (fmt : Json → String → String)
    (dec : String → String) (vd : Json) (descs : List Json) (prev : RowMap)
    (r : Int) (cDelta : List Json) :
    ∀ (schema : List Json) (colIdx cIdx : Nat) (row : RowMap),
      (decodeDeltaCols fmt dec vd descs prev r cDelta schema colIdx cIdx row).map (·.1)
        = deltaWalk (resolveDelta fmt vd) fmt descs prev r cDelta schema colIdx cIdx row := by
  intro schema
  induction schema with
  | nil => intro colIdx cIdx row; rfl
  | cons item rest ih =>
    intro colIdx cIdx row
    simp only [decodeDeltaCols, deltaWalk]
    by_cases hd : descs.length ≤ colIdx
    · simp only [if_pos hd]
      exact (map_fst_relabel _ _).trans (ih _ _ _)
    · simp only [if_neg hd]
      cases hcfg : lookupColCfg descs colIdx with
      | none => simp only [hcfg, Option.map_none']
      | some o =>
        cases o with
        | none => simp only [hcfg]; exact ih _ _ _
        | some cfg =>
          simp only [hcfg]
          by_cases hbit : pyBit r colIdx
          · simp only [if_pos hbit]; exact ih _ _ _
          · simp only [if_neg hbit]
            by_cases hex : cDelta.length ≤ cIdx
            · simp only [if_pos hex]
              exact (map_fst_relabel _ _).trans (ih _ _ _)
            · simp only [if_neg hex]
              cases hraw : cDelta.getD cIdx .null with
              | str s =>
                simp only [hraw, resolveDelta]
                exact (map_fst_relabel _ _).trans (ih _ _ _)
              | int n =>
                simp only [hraw, resolveDelta]
                cases item with
                | obj sfs =>
                  by_cases htr : ((Option.map (fun x => x.2)
                      (List.find? (fun kv => decide (kv.1 = "DN")) sfs)).getD
                        Json.null).truthy = true
                  · simp only [htr]
                    cases vd with
                    | obj fs =>
                      cases hfind : vdFind (.obj fs)
                          ((Option.map (fun x => x.2)
                            (List.find? (fun kv => decide (kv.1 = "DN")) sfs)).getD
                              Json.null) with
                      | none =>
                        simp only [hfind]
                        exact (map_fst_relabel _ _).trans (ih _ _ _)
                      | some v =>
                        cases v with
                        | arr lst =>
                          simp only [hfind]
                          by_cases hidx : 0 ≤ n ∧ n.toNat < lst.length
                          · simp only [if_pos hidx]
                            exact (map_fst_relabel _ _).trans (ih _ _ _)
                          · simp only [if_neg hidx]
                            exact (map_fst_relabel _ _).trans (ih _ _ _)
                        | null => simp only [hfind]; rfl
                        | bool b => simp only [hfind]; rfl
                        | int m => simp only [hfind]; rfl
                        | num q => simp only [hfind]; rfl
                        | str t => simp only [hfind]; rfl
                        | obj gs => simp only [hfind]; rfl
                    | null => simp only [htr]; rfl
                    | bool b => simp only [htr]; rfl
                    | int m => simp only [htr]; rfl
                    | num q => simp only [htr]; rfl
                    | str t => simp only [htr]; rfl
                    | arr xs => simp only [htr]; rfl
                  · rw [Bool.not_eq_true] at htr
                    simp only [htr]
                    exact (map_fst_relabel _ _).trans (ih _ _ _)
                | null => rfl
                | bool b => rfl
                | int m => rfl
                | num q => rfl
                | str t => rfl
                | arr xs => rfl
              | bool b =>
                simp only [hraw, resolveDelta]
                cases item with
                | obj sfs =>
                  by_cases htr : ((Option.map (fun x => x.2)
                      (List.find? (fun kv => decide (kv.1 = "DN")) sfs)).getD
                        Json.null).truthy = true
                  · simp only [htr]
                    cases vd with
                    | obj fs =>
                      cases hfind : vdFind (.obj fs)
                          ((Option.map (fun x => x.2)
                            (List.find? (fun kv => decide (kv.1 = "DN")) sfs)).getD
                              Json.null) with
                      | none =>
                        simp only [hfind]
                        exact (map_fst_relabel _ _).trans (ih _ _ _)
                      | some v =>
                        cases v with
                        | arr lst =>
                          simp only [hfind]
                          by_cases hidx : 0 ≤ (if b then (1 : Int) else 0)
                              ∧ (if b then (1 : Int) else 0).toNat < lst.length
                          · simp only [if_pos hidx]
                            exact (map_fst_relabel _ _).trans (ih _ _ _)
                          · simp only [if_neg hidx]
                            exact (map_fst_relabel _ _).trans (ih _ _ _)
                        | null => simp only [hfind]; rfl
                        | bool c => simp only [hfind]; rfl
                        | int m => simp only [hfind]; rfl
                        | num q => simp only [hfind]; rfl
                        | str t => simp only [hfind]; rfl
                        | obj gs => simp only [hfind]; rfl
                    | null => simp only [htr]; rfl
                    | bool c => simp only [htr]; rfl
                    | int m => simp only [htr]; rfl
                    | num q => simp only [htr]; rfl
                    | str t => simp only [htr]; rfl
                    | arr xs => simp only [htr]; rfl
                  · rw [Bool.not_eq_true] at htr
                    simp only [htr]
                    exact (map_fst_relabel _ _).trans (ih _ _ _)
                | null => rfl
                | bool c => rfl
                | int m => rfl
                | num q => rfl
                | str t => rfl
                | arr xs => rfl
              | num q =>
                simp only [hraw, resolveDelta]
                cases item with
                | obj sfs =>
                  by_cases htr : ((Option.map (fun x => x.2)
                      (List.find? (fun kv => decide (kv.1 = "DN")) sfs)).getD
                        Json.null).truthy = true
                  · simp only [htr]
                    cases vd with
                    | obj fs =>
                      exact (map_fst_relabel _ _).trans (ih _ _ _)
                    | null => simp only [htr]; rfl
                    | bool c => simp only [htr]; rfl
                    | int m => simp only [htr]; rfl
                    | num q2 => simp only [htr]; rfl
                    | str t => simp only [htr]; rfl
                    | arr xs => simp only [htr]; rfl
                  · rw [Bool.not_eq_true] at htr
                    simp only [htr]
                    exact (map_fst_relabel _ _).trans (ih _ _ _)
                | null => rfl
                | bool c => rfl
                | int m => rfl
                | num q2 => rfl
                | str t => rfl
                | arr xs => rfl
              | null =>
                simp only [hraw, resolveDelta]
                exact (map_fst_relabel _ _).trans (ih _ _ _)
              | arr xs =>
                simp only [hraw, resolveDelta]
                exact (map_fst_relabel _ _).trans (ih _ _ _)
              | obj gs =>
                simp only [hraw, resolveDelta]
                exact (map_fst_relabel _ _).trans (ih _ _ _)

/-- C1 counterexample: on a dictionary column (`DN = "D1"`,
`D1 = ["X", "Y"]`), a sparse STRING value `"1"` is stored literally by the
code (`natureza = "1"`), while base-row resolution (step 4: `int(raw)` then
dictionary lookup) yields `"Y"`; so the delta decode is not the delta walk
under the base-row rule. -/
theorem claim_c1_counterexample :
    strAt ((decodeDeltaRow sampleFmt sampleDec sampleValueDicts sampleDescs sampleSchema
        1 [.str "1"] samplePrevRow).map (fun p => p.1)) "natureza" = some "1"
    ∧ strAt (deltaWalk (resolveBase sampleFmt sampleDec sampleValueDicts) sampleFmt
        sampleDescs samplePrevRow 1 [.str "1"] sampleSchema 0 0 samplePrevRow) "natureza"
      = some "Y"
    ∧ (decodeDeltaRow sampleFmt sampleDec sampleValueDicts sampleDescs sampleSchema
        1 [.str "1"] samplePrevRow).map (fun p => p.1)
      ≠ deltaWalk (resolveBase sampleFmt sampleDec sampleValueDicts) sampleFmt
          sampleDescs samplePrevRow 1 [.str "1"] sampleSchema 0 0 samplePrevRow := by
  refine ⟨rfl, rfl, fun h => ?_⟩
  have h2 := congrArg (fun o => strAt o "natureza") h
  exact absurd h2 (by decide)

/-- C1 (amended): delta-row decoding starts from a copy of the previous
row's decoded values, walks columns in order, keeps the previous value where
the rulifier bit is 1, and where it is 0 consumes the next sparse value —
but resolves it by the delta rule `resolveDelta` (strings literal even on
dictionary columns; integers/booleans through the dictionary when the index
is valid, inheriting otherwise; other values literal or inherited), not by
the base-row rule. -/
theorem claim_c1_delta_resolution (fmt : Json → String → String)
    (dec : String → String) (vd : Json) (descs : List Json)
    (sSchema : List Json) (r : Int) (cDelta : List Json) (prev : RowMap) :
    (decodeDeltaRow fmt dec vd descs sSchema r cDelta prev).map (fun p => p.1)
      = deltaWalk (resolveDelta fmt vd) fmt descs prev r cDelta sSchema 0 0 prev :=
  decodeDeltaCols_eq_walk fmt dec vd descs prev r cDelta sSchema 0 0 prev


/-! ## C3: sparse exhaustion -/

/-- C3 counterexample: on a delta row whose sparse list is exhausted with
both mapped columns un-inherited (mask 0, empty sparse list), the row is
produced by pure inheritance, but the two exhaustion events are logged at
ERROR severity (`self.logger.error`), not at warning severity as the claim
states. -/
theorem claim_c3_counterexample :
    decodeDeltaRow sampleFmt sampleDec sampleValueDicts sampleDescs sampleSchema
        0 [] samplePrevRow
      = some (samplePrevRow,
          [⟨.error, "sparse_exhausted"⟩, ⟨.error, "sparse_exhausted"⟩])
    ∧ Severity.error ≠ Severity.warning :=
  ⟨rfl, by decide⟩

/-- C3 (amended): when the sparse value list is exhausted before the column
walk is over (every well-formed descriptor in range), no exception is raised
and a row is still produced; every remaining zero-bit mapped column falls
back to the inherited (previous row's) value, with the formatted field
default when the previous row lacks the field; the exhaustion is logged at
ERROR severity (not as a warning), one event per remaining zero-bit mapped
column. -/
theorem claim_c3_sparse_exhaustion (fmt : Json → String → String)
    (dec : String → String) (vd : Json) (descs : List Json) (prev : RowMap)
    (r : Int) (cDelta : List Json)
    (hwf : ∀ j, j < descs.length → (lookupColCfg descs j).isSome) :
    ∀ (schema : List Json) (colIdx cIdx : Nat) (row : RowMap),
      cDelta.length ≤ cIdx →
      ∃ row2 logs,
        decodeDeltaCols fmt dec vd descs prev r cDelta schema colIdx cIdx row
          = some (row2, logs)
        ∧ (∀ ev ∈ logs,
            ev = ⟨.error, "sparse_exhausted"⟩ ∨ ev = ⟨.warning, "desc_idx_oob"⟩)
        ∧ (0 < countZeroBitMapped descs r schema colIdx →
            (⟨.error, "sparse_exhausted"⟩ : LogEvent) ∈ logs)
        ∧ (∀ f, getField row2 f = getField row f
            ∨ ∃ c : FieldCfg, c.csvField = f
              ∧ getField row2 f
                  = some ((getField prev f).getD (.str (fmt (defaultJson c) c.ty)))) := by
  intro schema
  induction schema with
  | nil =>
    intro colIdx cIdx row _
    exact ⟨row, [], rfl, fun ev h => absurd h (List.not_mem_nil ev),
      fun h => absurd h (by simp [countZeroBitMapped]),
      fun f => Or.inl rfl⟩
  | cons item rest ih =>
    intro colIdx cIdx row hex
    simp only [decodeDeltaCols]
    by_cases hd : descs.length ≤ colIdx
    · obtain ⟨row2, logs, heq, hb, hc, hdd⟩ := ih (colIdx + 1) cIdx row hex
      refine ⟨row2, ⟨.warning, "desc_idx_oob"⟩ :: logs, ?_, ?_, ?_, hdd⟩
      · simp only [if_pos hd, heq, Option.map_some']
      · intro ev hmem
        rcases List.mem_cons.mp hmem with h | h
        · exact Or.inr h
        · exact hb ev h
      · intro hcount
        have : ¬ colIdx < descs.length := not_lt.mpr hd
        simp only [countZeroBitMapped, if_neg this, Nat.zero_add] at hcount
        exact List.mem_cons_of_mem _ (hc hcount)
    · have hlt : colIdx < descs.length := not_le.mp hd
      cases hcfg : lookupColCfg descs colIdx with
      | none => exact absurd (hwf colIdx hlt) (by simp [hcfg])
      | some o =>
        cases o with
        | none =>
          obtain ⟨row2, logs, heq, hb, hc, hdd⟩ := ih (colIdx + 1) cIdx row hex
          refine ⟨row2, logs, ?_, hb, ?_, hdd⟩
          · simp only [if_neg hd, hcfg, heq]
          · intro hcount
            simp only [countZeroBitMapped, if_pos hlt, hcfg, Nat.zero_add] at hcount
            exact hc hcount
        | some cfg =>
          by_cases hbit : pyBit r colIdx
          · obtain ⟨row2, logs, heq, hb, hc, hdd⟩ := ih (colIdx + 1) cIdx row hex
            refine ⟨row2, logs, ?_, hb, ?_, hdd⟩
            · simp only [if_neg hd, hcfg, if_pos hbit, heq]
            · intro hcount
              simp only [countZeroBitMapped, if_pos hlt, hcfg, hbit, if_true,
                Nat.zero_add] at hcount
              exact hc hcount
          · obtain ⟨row2, logs, heq, hb, hc, hdd⟩ :=
              ih (colIdx + 1) cIdx
                (setField row cfg.csvField
                  ((getField prev cfg.csvField).getD
                    (.str (fmt (defaultJson cfg) cfg.ty)))) hex
            refine ⟨row2, ⟨.error, "sparse_exhausted"⟩ :: logs, ?_, ?_, ?_, ?_⟩
            · simp only [if_neg hd, hcfg, if_neg hbit, if_pos hex, heq,
                Option.map_some']
            · intro ev hmem
              rcases List.mem_cons.mp hmem with h | h
              · exact Or.inl h
              · exact hb ev h
            · intro _
              exact List.mem_cons_self _ _
            · intro f
              rcases hdd f with h | h
              · by_cases hf : f = cfg.csvField
                · subst hf
                  rw [h, getField_setField_self]
                  exact Or.inr ⟨cfg, rfl, rfl⟩
                · rw [h, getField_setField_ne _ _ _ _ hf]
                  exact Or.inl rfl
              · exact Or.inr h

/-- Witness for C3: the amended exhaustion theorem applied to the concrete
two-column page data with mask 0 and an empty sparse list. -/
theorem claim_c3_sparse_exhaustion_witness :
    ∃ row2 logs,
      decodeDeltaCols sampleFmt sampleDec sampleValueDicts sampleDescs samplePrevRow 0 []
          sampleSchema 0 0 samplePrevRow
        = some (row2, logs)
      ∧ (∀ ev ∈ logs,
          ev = ⟨.error, "sparse_exhausted"⟩ ∨ ev = ⟨.warning, "desc_idx_oob"⟩)
      ∧ (0 < countZeroBitMapped sampleDescs 0 sampleSchema 0 →
          (⟨.error, "sparse_exhausted"⟩ : LogEvent) ∈ logs)
      ∧ (∀ f, getField row2 f = getField samplePrevRow f
          ∨ ∃ c : FieldCfg, c.csvField = f
            ∧ getField row2 f
                = some ((getField samplePrevRow f).getD
                    (.str (sampleFmt (defaultJson c) c.ty)))) :=
  claim_c3_sparse_exhaustion sampleFmt sampleDec sampleValueDicts sampleDescs
    samplePrevRow 0 [] (by decide) sampleSchema 0 0 samplePrevRow (by decide)


end Crawler

